import Mathlib

/-!
Verification development for the fanbox-dl repository (eagletmt/fanbox-dl).

The repository has two source files:
- src/lib.rs: a library client (PostClient) with the content model including
  forward-compatibility Unknown variants on every tagged union, pagination as a
  lazy stream, and a streaming download with mtime stamping.
- src/main.rs: the binary. It does not use lib.rs; it re-declares the whole
  content model (without the Unknown arms and without Header and Embed block
  kinds) and drives the fetch, render and download pipeline.

The embedding below models:
- JSON values and the serde-derived deserializers of both files, translated
  attribute by attribute. Semantics of serde attributes used by the code:
  a field with serde tag dispatch reads the tag key and matches the renamed
  variant names exactly; a variant marked with the serde other attribute
  absorbs any unrecognized string tag; a struct field of Option type is None
  when the key is missing or null. A field marked flatten of Option type
  follows the serde behavior for flattened optionals: the inner type is
  deserialized from the enclosing object and a failure yields None instead of
  an error. Numeric variant-index tags are not modeled; all claims concern
  string tags.
- The effectful pipeline of main.rs as a trace of events (file creations,
  GET requests, byte writes, mtime stamps, line emissions, warnings,
  directory creations, API calls), with the local filesystem modeled as a map
  from path to file entry, and the network modeled as oracles. Local
  filesystem operations are modeled as reliable; every claim concerns network
  failures or success paths.
-/

namespace Fanbox

/-- Modification time as passed to filetime FileTime from_unix_time:
whole seconds plus a nanosecond component. -/
structure Mtime where
  sec : Int
  nsec : Nat
deriving DecidableEq, Repr, BEq

/-- JSON value tree, the input of the serde-derived deserializers. -/
inductive Json
  | null
  | bool (b : Bool)
  | num (n : Int)
  | str (s : String)
  | arr (elems : List Json)
  | obj (fields : List (String × Json))

/-- Field lookup on a JSON object; none on non-objects and missing keys. -/
def Json.get? (j : Json) (key : String) : Option Json :=
  match j with
  | .obj fields => fields.lookup key
  | _ => none

/-- Required String field, as serde derives for a field of type String. -/
def reqStr (j : Json) (key : String) : Except String String :=
  match j.get? key with
  | some (.str s) => .ok s
  | some _ => .error ("invalid type for field " ++ key)
  | none => .error ("missing field " ++ key)

/-- Optional String field, as serde derives for a field of type Option String:
missing key or null gives none. -/
def optStr (j : Json) (key : String) : Except String (Option String) :=
  match j.get? key with
  | some (.str s) => .ok (some s)
  | some .null => .ok none
  | some _ => .error ("invalid type for field " ++ key)
  | none => .ok none

/-- Element-wise deserialization of a JSON array, as serde derives for Vec. -/
def deserList (f : Json → Except String α) : List Json → Except String (List α)
  | [] => .ok []
  | j :: rest => do
    let a ← f j
    let as ← deserList f rest
    .ok (a :: as)

/-- Required Vec field. -/
def reqArr (j : Json) (key : String) (f : Json → Except String α) :
    Except String (List α) :=
  match j.get? key with
  | some (.arr elems) => deserList f elems
  | some _ => .error ("invalid type for field " ++ key)
  | none => .error ("missing field " ++ key)

/-- Value-wise deserialization of a JSON object, as serde derives for
HashMap keyed by String. The map is consumed by lookup only, so an
association list is a faithful model. -/
def deserEntries (f : Json → Except String α) :
    List (String × Json) → Except String (List (String × α))
  | [] => .ok []
  | (k, j) :: rest => do
    let a ← f j
    let as ← deserEntries f rest
    .ok ((k, a) :: as)

/-- Required HashMap field. -/
def reqMap (j : Json) (key : String) (f : Json → Except String α) :
    Except String (List (String × α)) :=
  match j.get? key with
  | some (.obj fields) => deserEntries f fields
  | some _ => .error ("invalid type for field " ++ key)
  | none => .error ("missing field " ++ key)

/-- Image from lib.rs and main.rs (both files declare the identical struct):
id, extension, originalUrl. -/
structure Image where
  id : String
  extension : String
  originalUrl : String
deriving DecidableEq, Repr

def Image.deserialize (j : Json) : Except String Image := do
  let i ← reqStr j "id"
  let ext ← reqStr j "extension"
  let url ← reqStr j "originalUrl"
  .ok ⟨i, ext, url⟩

/-- File from lib.rs and main.rs: id, extension, name, url. -/
structure File where
  id : String
  extension : String
  name : String
  url : String
deriving DecidableEq, Repr

def File.deserialize (j : Json) : Except String File := do
  let i ← reqStr j "id"
  let ext ← reqStr j "extension"
  let n ← reqStr j "name"
  let u ← reqStr j "url"
  .ok ⟨i, ext, n, u⟩

/-- PostInfo from lib.rs and main.rs (identical in both files): id, title,
cover_image_url, updated_datetime, creator_id, with camelCase wire names.
The chrono datetime parser is external; deserializers take it as the
parameter parseDt. -/
structure PostInfo where
  id : String
  title : String
  coverImageUrl : Option String
  updatedDatetime : Mtime
  creatorId : String
deriving DecidableEq, Repr

def PostInfo.deserialize (parseDt : String → Option Mtime) (j : Json) :
    Except String PostInfo := do
  let i ← reqStr j "id"
  let title ← reqStr j "title"
  let cover ← optStr j "coverImageUrl"
  let dtStr ← reqStr j "updatedDatetime"
  match parseDt dtStr with
  | some t => do
    let cid ← reqStr j "creatorId"
    .ok ⟨i, title, cover, t, cid⟩
  | none => .error "invalid field updatedDatetime"

end Fanbox

namespace Fanbox.Lib

/-- PostBodyImageBody from lib.rs: text plus ordered images. -/
structure PostBodyImageBody where
  text : String
  images : List Image
deriving DecidableEq, Repr

def PostBodyImageBody.deserialize (j : Json) : Except String PostBodyImageBody := do
  let t ← reqStr j "text"
  let imgs ← reqArr j "images" Image.deserialize
  .ok ⟨t, imgs⟩

/-- PostBodyFileBody from lib.rs: text plus ordered files. -/
structure PostBodyFileBody where
  text : String
  files : List File
deriving DecidableEq, Repr

def PostBodyFileBody.deserialize (j : Json) : Except String PostBodyFileBody := do
  let t ← reqStr j "text"
  let fs ← reqArr j "files" File.deserialize
  .ok ⟨t, fs⟩

/-- PostBodyTextBody from lib.rs. -/
structure PostBodyTextBody where
  text : String
deriving DecidableEq, Repr

def PostBodyTextBody.deserialize (j : Json) : Except String PostBodyTextBody := do
  let t ← reqStr j "text"
  .ok ⟨t⟩

/-- ArticleBlock from lib.rs: internally tagged on the key type with
snake_case variant names p, header, image, file, embed, url_embed, and a
serde other arm named Unknown. Payload structs are collapsed into
constructor arguments, keeping their camelCase wire field names. -/
inductive ArticleBlock
  | p (text : String)
  | header (text : String)
  | image (imageId : String)
  | file (fileId : String)
  | embed (embedId : String)
  | urlEmbed (urlEmbedId : String)
  | unknown
deriving DecidableEq, Repr

def ArticleBlock.deserialize (j : Json) : Except String ArticleBlock :=
  match j.get? "type" with
  | some (.str tag) =>
    if tag = "p" then do
      let t ← reqStr j "text"
      .ok (.p t)
    else if tag = "header" then do
      let t ← reqStr j "text"
      .ok (.header t)
    else if tag = "image" then do
      let i ← reqStr j "imageId"
      .ok (.image i)
    else if tag = "file" then do
      let i ← reqStr j "fileId"
      .ok (.file i)
    else if tag = "embed" then do
      let i ← reqStr j "embedId"
      .ok (.embed i)
    else if tag = "url_embed" then do
      let i ← reqStr j "urlEmbedId"
      .ok (.urlEmbed i)
    else .ok .unknown
  | some _ => .error "invalid tag type"
  | none => .error "missing tag type"

/-- Embed from lib.rs: tagged on the key serviceProvider with lowercase
variant names twitter, fanbox, youtube, and a serde other arm. -/
inductive Embed
  | twitter (contentId : String)
  | fanbox (contentId : String)
  | youtube (contentId : String)
  | unknown
deriving DecidableEq, Repr

def Embed.deserialize (j : Json) : Except String Embed :=
  match j.get? "serviceProvider" with
  | some (.str tag) =>
    if tag = "twitter" then do
      let c ← reqStr j "contentId"
      .ok (.twitter c)
    else if tag = "fanbox" then do
      let c ← reqStr j "contentId"
      .ok (.fanbox c)
    else if tag = "youtube" then do
      let c ← reqStr j "contentId"
      .ok (.youtube c)
    else .ok .unknown
  | some _ => .error "invalid tag serviceProvider"
  | none => .error "missing tag serviceProvider"

/-- UrlEmbed from lib.rs: tagged on the key type with variant names default,
html, and the explicit rename html.card, plus a serde other arm. -/
inductive UrlEmbed
  | default (url : String)
  | html (html : String)
  | htmlCard (html : String)
  | unknown
deriving DecidableEq, Repr

def UrlEmbed.deserialize (j : Json) : Except String UrlEmbed :=
  match j.get? "type" with
  | some (.str tag) =>
    if tag = "default" then do
      let u ← reqStr j "url"
      .ok (.default u)
    else if tag = "html" then do
      let h ← reqStr j "html"
      .ok (.html h)
    else if tag = "html.card" then do
      let h ← reqStr j "html"
      .ok (.htmlCard h)
    else .ok .unknown
  | some _ => .error "invalid tag type"
  | none => .error "missing tag type"

/-- PostBodyArticleBody from lib.rs: ordered blocks plus the four lookup
maps imageMap, fileMap, embedMap, urlEmbedMap. -/
structure PostBodyArticleBody where
  blocks : List ArticleBlock
  imageMap : List (String × Image)
  fileMap : List (String × File)
  embedMap : List (String × Embed)
  urlEmbedMap : List (String × UrlEmbed)
deriving DecidableEq, Repr

def PostBodyArticleBody.deserialize (j : Json) : Except String PostBodyArticleBody := do
  let bs ← reqArr j "blocks" ArticleBlock.deserialize
  let im ← reqMap j "imageMap" Image.deserialize
  let fm ← reqMap j "fileMap" File.deserialize
  let em ← reqMap j "embedMap" Embed.deserialize
  let um ← reqMap j "urlEmbedMap" UrlEmbed.deserialize
  .ok ⟨bs, im, fm, em, um⟩

/-- PostBody from lib.rs: internally tagged on the key type with snake_case
variant names image, article, file, text, and a serde other arm named
Unknown. Each known variant wraps a single-field struct whose field body
holds the actual payload. -/
inductive PostBody
  | image (body : PostBodyImageBody)
  | article (body : PostBodyArticleBody)
  | file (body : PostBodyFileBody)
  | text (body : PostBodyTextBody)
  | unknown
deriving DecidableEq, Repr

def PostBody.deserialize (j : Json) : Except String PostBody :=
  match j.get? "type" with
  | some (.str tag) =>
    if tag = "image" then
      match j.get? "body" with
      | some b => do
        let x ← PostBodyImageBody.deserialize b
        .ok (.image x)
      | none => .error "missing field body"
    else if tag = "article" then
      match j.get? "body" with
      | some b => do
        let x ← PostBodyArticleBody.deserialize b
        .ok (.article x)
      | none => .error "missing field body"
    else if tag = "file" then
      match j.get? "body" with
      | some b => do
        let x ← PostBodyFileBody.deserialize b
        .ok (.file x)
      | none => .error "missing field body"
    else if tag = "text" then
      match j.get? "body" with
      | some b => do
        let x ← PostBodyTextBody.deserialize b
        .ok (.text x)
      | none => .error "missing field body"
    else .ok .unknown
  | some _ => .error "invalid tag type"
  | none => .error "missing tag type"

/-- Post from lib.rs: a flattened PostInfo next to a flattened optional
PostBody. Per the serde semantics of a flattened Option field, a failure of
the inner PostBody deserialization yields body none instead of an error. -/
structure Post where
  info : PostInfo
  body : Option PostBody
deriving DecidableEq, Repr

def Post.deserialize (parseDt : String → Option Mtime) (j : Json) :
    Except String Post := do
  let info ← PostInfo.deserialize parseDt j
  .ok ⟨info, (PostBody.deserialize j).toOption⟩

end Fanbox.Lib

namespace Fanbox.MainM

/-- ArticleBlock from main.rs: internally tagged on the key type with
snake_case variant names p, image, file, url_embed. Unlike lib.rs there is
no header, embed, or serde other arm: any other tag is a
deserialization error of the block. -/
inductive ArticleBlock
  | p (text : String)
  | image (imageId : String)
  | file (fileId : String)
  | urlEmbed (urlEmbedId : String)
deriving DecidableEq, Repr

def ArticleBlock.deserialize (j : Json) : Except String ArticleBlock :=
  match j.get? "type" with
  | some (.str tag) =>
    if tag = "p" then do
      let t ← reqStr j "text"
      .ok (.p t)
    else if tag = "image" then do
      let i ← reqStr j "imageId"
      .ok (.image i)
    else if tag = "file" then do
      let i ← reqStr j "fileId"
      .ok (.file i)
    else if tag = "url_embed" then do
      let i ← reqStr j "urlEmbedId"
      .ok (.urlEmbed i)
    else .error ("unknown variant of tag type: " ++ tag)
  | some _ => .error "invalid tag type"
  | none => .error "missing tag type"

/-- UrlEmbed from main.rs: tagged on the key type with variant names
default, html, html.card; no serde other arm. -/
inductive UrlEmbed
  | default (url : String)
  | html (html : String)
  | htmlCard (html : String)
deriving DecidableEq, Repr

def UrlEmbed.deserialize (j : Json) : Except String UrlEmbed :=
  match j.get? "type" with
  | some (.str tag) =>
    if tag = "default" then do
      let u ← reqStr j "url"
      .ok (.default u)
    else if tag = "html" then do
      let h ← reqStr j "html"
      .ok (.html h)
    else if tag = "html.card" then do
      let h ← reqStr j "html"
      .ok (.htmlCard h)
    else .error ("unknown variant of tag type: " ++ tag)
  | some _ => .error "invalid tag type"
  | none => .error "missing tag type"

/-- PostBodyImageBody from main.rs. -/
structure PostBodyImageBody where
  text : String
  images : List Image
deriving DecidableEq, Repr

def PostBodyImageBody.deserialize (j : Json) : Except String PostBodyImageBody := do
  let t ← reqStr j "text"
  let imgs ← reqArr j "images" Image.deserialize
  .ok ⟨t, imgs⟩

/-- PostBodyArticleBody from main.rs: ordered blocks plus the three lookup
maps imageMap, fileMap, urlEmbedMap (main.rs has no embedMap). -/
structure PostBodyArticleBody where
  blocks : List ArticleBlock
  imageMap : List (String × Image)
  fileMap : List (String × File)
  urlEmbedMap : List (String × UrlEmbed)
deriving DecidableEq, Repr

def PostBodyArticleBody.deserialize (j : Json) : Except String PostBodyArticleBody := do
  let bs ← reqArr j "blocks" ArticleBlock.deserialize
  let im ← reqMap j "imageMap" Image.deserialize
  let fm ← reqMap j "fileMap" File.deserialize
  let um ← reqMap j "urlEmbedMap" UrlEmbed.deserialize
  .ok ⟨bs, im, fm, um⟩

/-- PostBodyFileBody from main.rs. -/
structure PostBodyFileBody where
  text : String
  files : List File
deriving DecidableEq, Repr

def PostBodyFileBody.deserialize (j : Json) : Except String PostBodyFileBody := do
  let t ← reqStr j "text"
  let fs ← reqArr j "files" File.deserialize
  .ok ⟨t, fs⟩

/-- PostBodyTextBody from main.rs. -/
structure PostBodyTextBody where
  text : String
deriving DecidableEq, Repr

def PostBodyTextBody.deserialize (j : Json) : Except String PostBodyTextBody := do
  let t ← reqStr j "text"
  .ok ⟨t⟩

/-- PostBody from main.rs: internally tagged on the key type with variant
names image, article, file, text. Unlike lib.rs there is no serde other
arm: an unrecognized tag is a deserialization error. -/
inductive PostBody
  | image (body : PostBodyImageBody)
  | article (body : PostBodyArticleBody)
  | file (body : PostBodyFileBody)
  | text (body : PostBodyTextBody)
deriving DecidableEq, Repr

def PostBody.deserialize (j : Json) : Except String PostBody :=
  match j.get? "type" with
  | some (.str tag) =>
    if tag = "image" then
      match j.get? "body" with
      | some b => do
        let x ← PostBodyImageBody.deserialize b
        .ok (.image x)
      | none => .error "missing field body"
    else if tag = "article" then
      match j.get? "body" with
      | some b => do
        let x ← PostBodyArticleBody.deserialize b
        .ok (.article x)
      | none => .error "missing field body"
    else if tag = "file" then
      match j.get? "body" with
      | some b => do
        let x ← PostBodyFileBody.deserialize b
        .ok (.file x)
      | none => .error "missing field body"
    else if tag = "text" then
      match j.get? "body" with
      | some b => do
        let x ← PostBodyTextBody.deserialize b
        .ok (.text x)
      | none => .error "missing field body"
    else .error ("unknown variant of tag type: " ++ tag)
  | some _ => .error "invalid tag type"
  | none => .error "missing tag type"

/-- PostInfoResponseBody from main.rs: a flattened PostInfo next to a
flattened optional PostBody; a failure of the inner PostBody
deserialization yields body none, per the serde semantics of a flattened
Option field. -/
structure PostInfoResponseBody where
  info : PostInfo
  body : Option PostBody
deriving DecidableEq, Repr

def PostInfoResponseBody.deserialize (parseDt : String → Option Mtime) (j : Json) :
    Except String PostInfoResponseBody := do
  let info ← PostInfo.deserialize parseDt j
  .ok ⟨info, (PostBody.deserialize j).toOption⟩

end Fanbox.MainM

namespace Fanbox

/-- Result of one HTTP GET for an asset, as observed through reqwest by
download_to: a 2xx response whose body streams fully, a send failure, a
non-2xx status, or a 2xx response whose body stream fails after delivering
a prefix of the bytes. -/
inductive NetResult
  | ok (body : List Nat)
  | sendFail
  | statusErr (code : Nat)
  | readFail (got : List Nat)

/-- Asset network oracle: what one GET of each URL returns during the run. -/
abbrev Net := String → NetResult

/-- Error taxonomy of main.rs: every failure is an anyhow error whose
context string names the URL or post id and the phase. The constructor
records the phase kind (send, non-2xx status, body read) and the context
string built by the code. -/
inductive Err
  | sendFailed (ctx : String)
  | statusFailed (ctx : String)
  | readFailed (ctx : String)
deriving DecidableEq, Repr

/-- Observable events of the pipeline, in execution order. -/
inductive Ev
  | apiGet (url : String)
  | mkdir (path : String)
  | createFile (path : String)
  | getUrl (url : String)
  | writeBytes (path : String) (body : List Nat)
  | setMtime (path : String) (t : Mtime)
  | emit (line : String)
  | warn (msg : String)
  | writeIndex (path : String) (content : String)
deriving DecidableEq, Repr

/-- Contents of a local file: raw downloaded bytes or written text. -/
inductive FileContent
  | bytes (bs : List Nat)
  | text (s : String)
deriving DecidableEq, Repr

/-- A local file: its contents plus its explicitly stamped mtime, none when
the file has only the wall-clock time of its last write. -/
structure FileEntry where
  content : FileContent
  mtimeStamp : Option Mtime
deriving DecidableEq, Repr

/-- The local filesystem as a partial map from path to file entry. -/
def FS := String → Option FileEntry

def emptyFS : FS := fun _ => none

def fsSet (fs : FS) (p : String) (e : FileEntry) : FS :=
  fun q => if q = p then some e else fs q

/-- Effect of one event on the filesystem. File creation truncates, byte
and text writes replace contents and reset any stamp to wall clock, and a
stamp records the explicit mtime. -/
def applyEv (fs : FS) : Ev → FS
  | .createFile p => fsSet fs p ⟨.bytes [], none⟩
  | .writeBytes p bs => fsSet fs p ⟨.bytes bs, none⟩
  | .writeIndex p s => fsSet fs p ⟨.text s, none⟩
  | .setMtime p t =>
    match fs p with
    | some e => fsSet fs p ⟨e.content, some t⟩
    | none => fs
  | _ => fs

def applyTrace (fs : FS) (t : List Ev) : FS := t.foldl applyEv fs

/-- download_to from main.rs (and identically PostClient download_to in
lib.rs): create and truncate the destination file, send the GET, check the
status, stream the body into the file, close it, then stamp the mtime.
Every step after the creation can fail and leaves the file behind. -/
def download_to (net : Net) (url : String) (path : String) (mtime : Mtime) :
    List Ev × Option Err :=
  match net url with
  | .ok body =>
    ([.createFile path, .getUrl url, .writeBytes path body, .setMtime path mtime],
     none)
  | .sendFail =>
    ([.createFile path, .getUrl url],
     some (.sendFailed ("failed to send request " ++ url)))
  | .statusErr _ =>
    ([.createFile path, .getUrl url],
     some (.statusFailed ("failed to get " ++ url)))
  | .readFail got =>
    ([.createFile path, .getUrl url, .writeBytes path got],
     some (.readFailed ("failed to download " ++ url)))

/-- Title line emitted first by every renderer. -/
def titleLine (info : PostInfo) : String :=
  "<h1><a href=\x27https://" ++ info.creatorId ++ ".fanbox.cc/posts/" ++
    info.id ++ "\x27>" ++ info.title ++ "</a></h1>"

/-- Cover image line shared by the image, file and text renderers. -/
def coverImgLine (url : String) : String :=
  "<img alt=\x27" ++ url ++ "\x27 src=\x27./cover_image.jpeg\x27>"

/-- Single cover line of the article renderer. -/
def coverParaLine (url : String) : String :=
  "<p><img alt=\x27" ++ url ++ "\x27 src=\x27./cover_image.jpeg\x27></p>"

/-- Image line of the image renderer, a full-width paragraph. -/
def imageFullLine (img : Image) : String :=
  "<p><img alt=\x27" ++ img.originalUrl ++ "\x27 src=\x27./" ++ img.id ++
    "." ++ img.extension ++ "\x27 style=\x27width: 100%;\x27></p>"

/-- Image fragment of the article renderer, without the paragraph wrapper. -/
def imageArticleLine (img : Image) : String :=
  "<img alt=\x27" ++ img.originalUrl ++ "\x27 src=\x27./" ++ img.id ++
    "." ++ img.extension ++ "\x27 style=\x27width: 100%;\x27>"

/-- File link fragment shared by the article and file renderers. -/
def fileLinkLine (f : File) : String :=
  "<a href=\x27./" ++ f.id ++ "." ++ f.extension ++ "\x27>" ++ f.name ++ "</a>"

/-- Anchor fragment for a default url embed. -/
def anchorLine (url : String) : String :=
  "<a href=\x27" ++ url ++ "\x27>" ++ url ++ "</a>"

/-- Trailing paragraph wrapping the body text. -/
def paraLine (t : String) : String := "<p>" ++ t ++ "</p>"

/-- Destination path of a downloaded asset, assetId dot extension inside
the post directory. -/
def assetPath (destDir assetId ext : String) : String :=
  destDir ++ "/" ++ assetId ++ "." ++ ext

/-- Lines pushed to index_lines, read back from the event trace. -/
def emittedLines : List Ev → List String
  | [] => []
  | .emit s :: rest => s :: emittedLines rest
  | _ :: rest => emittedLines rest

/-- Cover image step shared by all four renderers: when a cover URL is
present, download it to cover_image.jpeg and push the renderer-specific
lines; on download failure propagate the error. -/
def coverSegment (net : Net) (destDir : String) (mt : Mtime)
    (cover : Option String) (lines : String → List String) :
    List Ev × Option Err :=
  match cover with
  | none => ([], none)
  | some url =>
    match download_to net url (destDir ++ "/cover_image.jpeg") mt with
    | (t, some e) => (t, some e)
    | (t, none) => (t ++ (lines url).map Ev.emit, none)

/-- Cover lines of the image, file and text renderers. -/
def coverLines3 (url : String) : List String := ["<p>", coverImgLine url, "</p>"]

/-- Cover lines of the article renderer. -/
def coverLines1 (url : String) : List String := [coverParaLine url]

/-- Final step of every renderer: write index.html from the lines emitted
so far, then stamp it with the updated time of the post. -/
def indexSegment (destDir : String) (mt : Mtime) (tr : List Ev) : List Ev :=
  [Ev.writeIndex (destDir ++ "/index.html")
     (String.intercalate "\n" (emittedLines tr)),
   Ev.setMtime (destDir ++ "/index.html") mt]

/-- Image loop of download_image_post: download each image in declared
order and push its full-width line; a failure aborts the loop. -/
def imagesLoop (net : Net) (destDir : String) (mt : Mtime) :
    List Image → List Ev × Option Err
  | [] => ([], none)
  | img :: rest =>
    match download_to net img.originalUrl
        (assetPath destDir img.id img.extension) mt with
    | (t, some e) => (t, some e)
    | (t, none) =>
      match imagesLoop net destDir mt rest with
      | (t2, e2) => (t ++ (Ev.emit (imageFullLine img) :: t2), e2)

/-- File loop of download_file_post: download each file in declared order
and push its paragraph-wrapped link; a failure aborts the loop. -/
def filesLoop (net : Net) (destDir : String) (mt : Mtime) :
    List File → List Ev × Option Err
  | [] => ([], none)
  | f :: rest =>
    match download_to net f.url (assetPath destDir f.id f.extension) mt with
    | (t, some e) => (t, some e)
    | (t, none) =>
      match filesLoop net destDir mt rest with
      | (t2, e2) =>
        (t ++ (Ev.emit "<p>" :: Ev.emit (fileLinkLine f) :: Ev.emit "</p>" :: t2),
         e2)

/-- Body of one arm of the match over an article block in
download_article_post, without the paragraph wrapper that the loop pushes
around every block. A reference whose id misses its map yields a warning
and nothing else. -/
def blockSegment (net : Net) (destDir : String) (mt : Mtime)
    (body : MainM.PostBodyArticleBody) : MainM.ArticleBlock →
    List Ev × Option Err
  | .p text => ([Ev.emit text], none)
  | .image imageId =>
    match body.imageMap.lookup imageId with
    | some img =>
      match download_to net img.originalUrl
          (assetPath destDir img.id img.extension) mt with
      | (t, some e) => (t, some e)
      | (t, none) => (t ++ [Ev.emit (imageArticleLine img)], none)
    | none =>
      ([Ev.warn ("image " ++ imageId ++ " is not available in imageMap")], none)
  | .file fileId =>
    match body.fileMap.lookup fileId with
    | some f =>
      match download_to net f.url (assetPath destDir f.id f.extension) mt with
      | (t, some e) => (t, some e)
      | (t, none) => (t ++ [Ev.emit (fileLinkLine f)], none)
    | none =>
      ([Ev.warn ("file " ++ fileId ++ " is not available in fileMap")], none)
  | .urlEmbed urlEmbedId =>
    match body.urlEmbedMap.lookup urlEmbedId with
    | some (.default url) => ([Ev.emit (anchorLine url)], none)
    | some (.html h) => ([Ev.emit h], none)
    | some (.htmlCard h) => ([Ev.emit h], none)
    | none =>
      ([Ev.warn ("url_embed " ++ urlEmbedId ++ " is not available in urlEmbedMap")],
       none)

/-- Block loop of download_article_post: every block is preceded by a
paragraph open line and followed by a paragraph close line; an error inside
a block aborts before the close line is pushed. -/
def blocksLoop (net : Net) (destDir : String) (mt : Mtime)
    (body : MainM.PostBodyArticleBody) :
    List MainM.ArticleBlock → List Ev × Option Err
  | [] => ([], none)
  | b :: rest =>
    match blockSegment net destDir mt body b with
    | (t, some e) => (Ev.emit "<p>" :: t, some e)
    | (t, none) =>
      match blocksLoop net destDir mt body rest with
      | (t2, e2) => (Ev.emit "<p>" :: (t ++ (Ev.emit "</p>" :: t2)), e2)

/-- download_image_post from main.rs. -/
def download_image_post (net : Net) (destDir : String) (info : PostInfo)
    (body : MainM.PostBodyImageBody) : List Ev × Option Err :=
  let t0 := [Ev.emit (titleLine info)]
  match coverSegment net destDir info.updatedDatetime info.coverImageUrl
      coverLines3 with
  | (tc, some e) => (t0 ++ tc, some e)
  | (tc, none) =>
    match imagesLoop net destDir info.updatedDatetime body.images with
    | (ti, some e) => (t0 ++ tc ++ ti, some e)
    | (ti, none) =>
      let tAll := t0 ++ tc ++ ti ++ [Ev.emit (paraLine body.text)]
      (tAll ++ indexSegment destDir info.updatedDatetime tAll, none)

/-- download_article_post from main.rs. -/
def download_article_post (net : Net) (destDir : String) (info : PostInfo)
    (body : MainM.PostBodyArticleBody) : List Ev × Option Err :=
  let t0 := [Ev.emit (titleLine info)]
  match coverSegment net destDir info.updatedDatetime info.coverImageUrl
      coverLines1 with
  | (tc, some e) => (t0 ++ tc, some e)
  | (tc, none) =>
    match blocksLoop net destDir info.updatedDatetime body body.blocks with
    | (tb, some e) => (t0 ++ tc ++ tb, some e)
    | (tb, none) =>
      let tAll := t0 ++ tc ++ tb
      (tAll ++ indexSegment destDir info.updatedDatetime tAll, none)

/-- download_file_post from main.rs. -/
def download_file_post (net : Net) (destDir : String) (info : PostInfo)
    (body : MainM.PostBodyFileBody) : List Ev × Option Err :=
  let t0 := [Ev.emit (titleLine info)]
  match coverSegment net destDir info.updatedDatetime info.coverImageUrl
      coverLines3 with
  | (tc, some e) => (t0 ++ tc, some e)
  | (tc, none) =>
    match filesLoop net destDir info.updatedDatetime body.files with
    | (tf, some e) => (t0 ++ tc ++ tf, some e)
    | (tf, none) =>
      let tAll := t0 ++ tc ++ tf ++ [Ev.emit (paraLine body.text)]
      (tAll ++ indexSegment destDir info.updatedDatetime tAll, none)

/-- download_text_post from main.rs. -/
def download_text_post (net : Net) (destDir : String) (info : PostInfo)
    (body : MainM.PostBodyTextBody) : List Ev × Option Err :=
  let t0 := [Ev.emit (titleLine info)]
  match coverSegment net destDir info.updatedDatetime info.coverImageUrl
      coverLines3 with
  | (tc, some e) => (t0 ++ tc, some e)
  | (tc, none) =>
    let tAll := t0 ++ tc ++ [Ev.emit (paraLine body.text)]
    (tAll ++ indexSegment destDir info.updatedDatetime tAll, none)

/-- Dispatch over the four body variants in the main loop of main.rs. -/
def processBody (net : Net) (destDir : String) (info : PostInfo) :
    MainM.PostBody → List Ev × Option Err
  | .image b => download_image_post net destDir info b
  | .article b => download_article_post net destDir info b
  | .file b => download_file_post net destDir info b
  | .text b => download_text_post net destDir info b

end Fanbox

namespace Fanbox

/-- Result of one JSON API call as observed through reqwest: a parsed
value, a send failure, a non-2xx status, or a response whose body could
not be read or decoded. -/
inductive ApiResult (α : Type)
  | ok (val : α)
  | sendFail
  | statusErr (code : Nat)
  | readFail

/-- One fetched post of main.rs after deserialization: the flattened info
plus the optional body (none when the caller cannot view the post). -/
structure FetchedPost where
  info : PostInfo
  body : Option MainM.PostBody

/-- Oracles for the three JSON endpoints plus the asset network. -/
structure Api where
  paginate : String → ApiResult (List String)
  listCreator : String → ApiResult (List String)
  postInfo : String → ApiResult FetchedPost
  assetNet : Net

/-- Request description of the post.info call for a post id. -/
def postInfoUrl (id : String) : String :=
  "https://api.fanbox.cc/post.info?postId=" ++ id

/-- Request description of the post.paginateCreator call. -/
def paginateUrl (cid : String) : String :=
  "https://api.fanbox.cc/post.paginateCreator?creatorId=" ++ cid

/-- Warning of main.rs for a post with no viewable body; it names the
creator id from the command line and the post id. -/
def permissionWarning (creatorId postId : String) : String :=
  "You don\x27t have permission to see post https://" ++ creatorId ++
    ".fanbox.cc/posts/" ++ postId

/-- Per-post step of the main loop: a post with no body only warns; a post
with a body gets its directory created and its variant rendered. -/
def processPost (api : Api) (creatorId destRoot : String) (fp : FetchedPost) :
    List Ev × Option Err :=
  match fp.body with
  | some b =>
    let destDir := destRoot ++ "/" ++ fp.info.id
    match processBody api.assetNet destDir fp.info b with
    | (t, e) => (Ev.mkdir destDir :: t, e)
  | none => ([Ev.warn (permissionWarning creatorId fp.info.id)], none)

/-- Inner loop of main.rs over the post ids of one listing page: fetch
post.info for each id and process the post; any error aborts. -/
def runPosts (api : Api) (creatorId destRoot : String) :
    List String → List Ev × Option Err
  | [] => ([], none)
  | id :: rest =>
    match api.postInfo id with
    | .ok fp =>
      match processPost api creatorId destRoot fp with
      | (t, some e) => (Ev.apiGet (postInfoUrl id) :: t, some e)
      | (t, none) =>
        match runPosts api creatorId destRoot rest with
        | (t2, e2) => (Ev.apiGet (postInfoUrl id) :: (t ++ t2), e2)
    | .sendFail =>
      ([Ev.apiGet (postInfoUrl id)],
       some (.sendFailed ("failed to send post.info request: postId=" ++ id)))
    | .statusErr _ =>
      ([Ev.apiGet (postInfoUrl id)],
       some (.statusFailed ("post.info returns error: postId=" ++ id)))
    | .readFail =>
      ([Ev.apiGet (postInfoUrl id)],
       some (.readFailed ("failed to read post.info response: postId=" ++ id)))

/-- Outer loop of main.rs over the page URLs of the pagination index. -/
def runPages (api : Api) (creatorId destRoot : String) :
    List String → List Ev × Option Err
  | [] => ([], none)
  | url :: rest =>
    match api.listCreator url with
    | .ok items =>
      match runPosts api creatorId destRoot items with
      | (t, some e) => (Ev.apiGet url :: t, some e)
      | (t, none) =>
        match runPages api creatorId destRoot rest with
        | (t2, e2) => (Ev.apiGet url :: (t ++ t2), e2)
    | .sendFail =>
      ([Ev.apiGet url],
       some (.sendFailed ("failed to send post.listCreator request: " ++ url)))
    | .statusErr _ =>
      ([Ev.apiGet url],
       some (.statusFailed ("post.listCreator returns error: " ++ url)))
    | .readFail =>
      ([Ev.apiGet url],
       some (.readFailed ("failed to read post.listCreator response: " ++ url)))

/-- Whole run of main.rs after argument parsing: fetch the pagination
index, then walk its pages. -/
def runMain (api : Api) (creatorId destRoot : String) : List Ev × Option Err :=
  match api.paginate creatorId with
  | .ok pages =>
    match runPages api creatorId destRoot pages with
    | (t, e) => (Ev.apiGet (paginateUrl creatorId) :: t, e)
  | .sendFail =>
    ([Ev.apiGet (paginateUrl creatorId)],
     some (.sendFailed "failed to send post.paginateCreator request"))
  | .statusErr _ =>
    ([Ev.apiGet (paginateUrl creatorId)],
     some (.statusFailed "post.paginateCreator returns error"))
  | .readFail =>
    ([Ev.apiGet (paginateUrl creatorId)],
     some (.readFailed "failed to read post.paginateCreator response"))

/-- Error enum of lib.rs, without payloads. -/
inductive LibErr
  | httpRequestError
  | httpStatusError
  | httpReadError
deriving DecidableEq, Repr

/-- Observable events of the pagination stream of lib.rs: a page fetch or
a yielded post summary id. -/
inductive PEv
  | fetch (url : String)
  | yieldOk (id : String)
deriving DecidableEq, Repr

/-- Body of the async stream of paginate_creator in lib.rs: for each page
URL in the order returned by the index, fetch the page, yield its items in
order, and continue; an error on a page fetch terminates the stream with
that error as its final element. -/
def streamPages (listC : String → ApiResult (List String)) :
    List String → List PEv × Option LibErr
  | [] => ([], none)
  | url :: rest =>
    match listC url with
    | .ok items =>
      match streamPages listC rest with
      | (t, e) => (PEv.fetch url :: (items.map PEv.yieldOk ++ t), e)
    | .sendFail => ([PEv.fetch url], some .httpRequestError)
    | .statusErr _ => ([PEv.fetch url], some .httpStatusError)
    | .readFail => ([PEv.fetch url], some .httpReadError)

/-- paginate_creator from lib.rs: fetch the pagination index, then return
the lazy stream over its page URLs. -/
def paginate_creator (pagIndex : ApiResult (List String))
    (listC : String → ApiResult (List String)) :
    Except LibErr (List PEv × Option LibErr) :=
  match pagIndex with
  | .ok pages => .ok (streamPages listC pages)
  | .sendFail => .error .httpRequestError
  | .statusErr _ => .error .httpStatusError
  | .readFail => .error .httpReadError

/-- Page URLs fetched by a stream trace, in order. -/
def fetchesOf : List PEv → List String
  | [] => []
  | .fetch u :: rest => u :: fetchesOf rest
  | _ :: rest => fetchesOf rest

/-- Item ids yielded by a stream trace, in order. -/
def yieldsOf : List PEv → List String
  | [] => []
  | .yieldOk i :: rest => i :: yieldsOf rest
  | _ :: rest => yieldsOf rest

/-- UTF-8 encoding of one character, the bytes Rust str as_bytes exposes. -/
def charBytes (c : Char) : List Nat :=
  let n := c.toNat
  if n < 128 then [n]
  else if n < 2048 then [192 ||| (n >>> 6), 128 ||| (n &&& 63)]
  else if n < 65536 then
    [224 ||| (n >>> 12), 128 ||| ((n >>> 6) &&& 63), 128 ||| (n &&& 63)]
  else
    [240 ||| (n >>> 18), 128 ||| ((n >>> 12) &&& 63),
     128 ||| ((n >>> 6) &&& 63), 128 ||| (n &&& 63)]

/-- UTF-8 bytes of a string. -/
def strBytes (s : String) : List Nat := s.data.flatMap charBytes

/-- Validity of one byte inside an HTTP header value, as checked by
HeaderValue from_str of the http crate: byte 9 (tab) or any byte from 32
up except 127. -/
def isValidHeaderValueByte (b : Nat) : Bool :=
  (32 ≤ b && b ≠ 127) || b == 9

/-- Outcome of building the transport client: the built client carrying
its cookie header value, or a panic from the unchecked unwrap on the
header-value construction. -/
inductive ClientBuild
  | ok (cookieHeader : String)
  | panicked
deriving DecidableEq, Repr

/-- PostClient new from lib.rs (main.rs builds the same client inline):
format the session id into the cookie header value and unwrap the
HeaderValue construction, which panics when any byte of the formatted
value is invalid in a header value. -/
def PostClient.new (sessionId : String) : ClientBuild :=
  let v := "FANBOXSESSID=" ++ sessionId ++ ";"
  if (strBytes v).all isValidHeaderValueByte then .ok v else .panicked

end Fanbox

namespace Fanbox

/-- Event classifiers over the pipeline trace. -/
def isWarnEv : Ev → Bool
  | .warn _ => true
  | _ => false

def isMkdirEv : Ev → Bool
  | .mkdir _ => true
  | _ => false

def isGetEv : Ev → Bool
  | .getUrl _ => true
  | _ => false

def isWriteEv : Ev → Bool
  | .createFile _ => true
  | .writeBytes _ _ => true
  | .writeIndex _ _ => true
  | _ => false

def isWriteIndexEv : Ev → Bool
  | .writeIndex _ _ => true
  | _ => false

def isApiGetOf (url : String) : Ev → Bool
  | .apiGet u => u == url
  | _ => false

/-- Number of trace events matched by a classifier. -/
def countP (p : Ev → Bool) (t : List Ev) : Nat := (t.filter p).length

theorem countP_append (p : Ev → Bool) (a b : List Ev) :
    countP p (a ++ b) = countP p a + countP p b := by
  simp [countP, List.filter_append]

theorem countP_nil (p : Ev → Bool) : countP p [] = 0 := rfl

/-- Every file present on the filesystem carries the explicit stamp mt. -/
def allStamped (mt : Mtime) (fs : FS) : Prop :=
  ∀ p e, fs p = some e → e.mtimeStamp = some mt

theorem allStamped_empty (mt : Mtime) : allStamped mt emptyFS := by
  intro p e h
  simp [emptyFS] at h

theorem allStamped_fsSet (mt : Mtime) (fs : FS) (p : String) (c : FileContent)
    (h : allStamped mt fs) : allStamped mt (fsSet fs p ⟨c, some mt⟩) := by
  intro q e hq
  by_cases hqp : q = p
  · simp [fsSet, hqp] at hq
    simp [← hq]
  · simp [fsSet, hqp] at hq
    exact h q e hq

theorem applyTrace_append (fs : FS) (a b : List Ev) :
    applyTrace fs (a ++ b) = applyTrace (applyTrace fs a) b := by
  simp [applyTrace, List.foldl_append]

/-- Events with no filesystem effect. -/
def fsNeutral : Ev → Bool
  | .createFile _ => false
  | .writeBytes _ _ => false
  | .writeIndex _ _ => false
  | .setMtime _ _ => false
  | _ => true

theorem applyEv_neutral (fs : FS) (ev : Ev) (h : fsNeutral ev = true) :
    applyEv fs ev = fs := by
  cases ev <;> simp [fsNeutral] at h <;> rfl

theorem applyTrace_neutral (fs : FS) (t : List Ev) (h : t.all fsNeutral = true) :
    applyTrace fs t = fs := by
  induction t generalizing fs with
  | nil => rfl
  | cons ev rest ih =>
    rw [List.all_cons, Bool.and_eq_true] at h
    show applyTrace (applyEv fs ev) rest = fs
    rw [applyEv_neutral fs ev h.1]
    exact ih fs h.2

theorem strBytes_append (a b : String) :
    strBytes (a ++ b) = strBytes a ++ strBytes b := by
  simp [strBytes, String.data_append, List.flatMap_append]

/-- Claim C10: constructing the transport client panics rather than
returning an error when the supplied session credential string contains a
byte that is not valid in an HTTP header value, because the cookie header
value is built with an unchecked unwrap. -/
theorem client_new_panics_on_invalid_header_byte (sessionId : String) (b : Nat)
    (hmem : b ∈ strBytes sessionId) (hbad : isValidHeaderValueByte b = false) :
    PostClient.new sessionId = .panicked := by
  have hmem2 : b ∈ strBytes ("FANBOXSESSID=" ++ sessionId ++ ";") := by
    rw [strBytes_append, strBytes_append]
    exact List.mem_append.mpr (Or.inl (List.mem_append.mpr (Or.inr hmem)))
  have hall : (strBytes ("FANBOXSESSID=" ++ sessionId ++ ";")).all
      isValidHeaderValueByte = false := by
    cases hcase : (strBytes ("FANBOXSESSID=" ++ sessionId ++ ";")).all
        isValidHeaderValueByte with
    | false => rfl
    | true =>
      have := List.all_eq_true.mp hcase b hmem2
      rw [hbad] at this
      exact absurd this (by simp)
  unfold PostClient.new
  simp only [hall]
  rfl

/-- Concrete instance of claim C10: a session id containing a newline byte
makes the client constructor panic. -/
theorem client_new_panics_on_invalid_header_byte_witness :
    (10 ∈ strBytes "ab\ncd") ∧ isValidHeaderValueByte 10 = false ∧
      PostClient.new "ab\ncd" = .panicked := by
  refine ⟨by decide, by decide, ?_⟩
  exact client_new_panics_on_invalid_header_byte "ab\ncd" 10 (by decide) (by decide)

/-- Claim C8: download_to creates and truncates the destination file before
issuing the GET, so a send failure or a non-2xx status leaves a zero-length
file at the destination, destroying any previous contents. -/
theorem download_error_leaves_empty_file (net : Net) (url path : String)
    (mt : Mtime) (fs0 : FS)
    (h : net url = .sendFail ∨ ∃ c, net url = .statusErr c) :
    applyTrace fs0 (download_to net url path mt).1 path =
      some ⟨.bytes [], none⟩ ∧ (download_to net url path mt).2 ≠ none := by
  rcases h with h | ⟨c, h⟩ <;>
    simp [download_to, h, applyTrace, applyEv, fsSet]

/-- Concrete instance of claim C8: a prior file at the path is replaced by
an empty unstamped file when the GET returns status 403. -/
theorem download_error_leaves_empty_file_witness :
    applyTrace (fsSet emptyFS "dir/a.png" ⟨.bytes [7, 7], some ⟨1, 2⟩⟩)
        ((download_to (fun _ => .statusErr 403) "http://x" "dir/a.png" ⟨9, 9⟩).1)
        "dir/a.png" = some ⟨.bytes [], none⟩ ∧
      (download_to (fun _ => .statusErr 403) "http://x" "dir/a.png" ⟨9, 9⟩).2 ≠
        none := by
  exact download_error_leaves_empty_file (fun _ => .statusErr 403) "http://x"
    "dir/a.png" ⟨9, 9⟩ (fsSet emptyFS "dir/a.png" ⟨.bytes [7, 7], some ⟨1, 2⟩⟩)
    (Or.inr ⟨403, rfl⟩)

theorem yieldsOf_append (a b : List PEv) :
    yieldsOf (a ++ b) = yieldsOf a ++ yieldsOf b := by
  induction a with
  | nil => rfl
  | cons ev rest ih => cases ev <;> simp [yieldsOf, ih]

theorem fetchesOf_append (a b : List PEv) :
    fetchesOf (a ++ b) = fetchesOf a ++ fetchesOf b := by
  induction a with
  | nil => rfl
  | cons ev rest ih => cases ev <;> simp [fetchesOf, ih]

theorem yieldsOf_map_yieldOk (l : List String) :
    yieldsOf (l.map PEv.yieldOk) = l := by
  induction l with
  | nil => rfl
  | cons i rest ih => simp [yieldsOf, ih]

theorem fetchesOf_map_yieldOk (l : List String) :
    fetchesOf (l.map PEv.yieldOk) = [] := by
  induction l with
  | nil => rfl
  | cons i rest ih => simp [fetchesOf, ih]

theorem yieldsOf_fetch_cons (u : String) (t : List PEv) :
    yieldsOf (PEv.fetch u :: t) = yieldsOf t := rfl

theorem fetchesOf_fetch_cons (u : String) (t : List PEv) :
    fetchesOf (PEv.fetch u :: t) = u :: fetchesOf t := rfl

theorem yieldsOf_flatTrace (items : String → List String) (pages : List String) :
    yieldsOf (pages.flatMap (fun u => PEv.fetch u :: (items u).map PEv.yieldOk))
      = (pages.map items).flatten := by
  induction pages with
  | nil => rfl
  | cons u rest ih =>
    rw [List.flatMap_cons, List.cons_append, yieldsOf_fetch_cons,
      yieldsOf_append, yieldsOf_map_yieldOk, ih, List.map_cons,
      List.flatten_cons]

theorem fetchesOf_flatTrace (items : String → List String) (pages : List String) :
    fetchesOf (pages.flatMap (fun u => PEv.fetch u :: (items u).map PEv.yieldOk))
      = pages := by
  induction pages with
  | nil => rfl
  | cons u rest ih =>
    rw [List.flatMap_cons, List.cons_append, fetchesOf_fetch_cons,
      fetchesOf_append, fetchesOf_map_yieldOk, ih, List.nil_append]

/-- Claim C7: when every page request succeeds, the pagination stream is,
page by page in index order, one fetch of the page followed by its items
yielded in order; hence the yielded sequence is the two-level flatten of
the per-page item lists, and the fetched pages are exactly the index page
URLs in order, each fetched once. -/
theorem pagination_two_level_flatten
    (listC : String → ApiResult (List String)) (items : String → List String)
    (pages : List String) (h : ∀ u ∈ pages, listC u = .ok (items u)) :
    streamPages listC pages =
        (pages.flatMap (fun u => PEv.fetch u :: (items u).map PEv.yieldOk),
         none) ∧
      yieldsOf (streamPages listC pages).1 = (pages.map items).flatten ∧
      fetchesOf (streamPages listC pages).1 = pages := by
  have main : streamPages listC pages =
      (pages.flatMap (fun u => PEv.fetch u :: (items u).map PEv.yieldOk),
       none) := by
    induction pages with
    | nil => rfl
    | cons u rest ih =>
      have hu : listC u = .ok (items u) := h u (List.mem_cons_self u rest)
      have hrest : ∀ v ∈ rest, listC v = .ok (items v) := fun v hv =>
        h v (List.mem_cons_of_mem u hv)
      simp [streamPages, hu, ih hrest, List.flatMap_cons]
  refine ⟨main, ?_, ?_⟩
  · rw [main]
    exact yieldsOf_flatTrace items pages
  · rw [main]
    exact fetchesOf_flatTrace items pages

/-- Concrete instance of claim C7: two pages with items A, B and C flatten
to the ordered sequence A, B, C with each page fetched once, the second
fetch occurring after the items of the first page. -/
theorem pagination_two_level_flatten_witness :
    streamPages (fun u => if u = "u1" then .ok ["A", "B"] else .ok ["C"])
        ["u1", "u2"] =
      ([.fetch "u1", .yieldOk "A", .yieldOk "B", .fetch "u2", .yieldOk "C"],
       none) ∧
      yieldsOf (streamPages
          (fun u => if u = "u1" then .ok ["A", "B"] else .ok ["C"])
          ["u1", "u2"]).1 = ["A", "B", "C"] := by
  have h := pagination_two_level_flatten
    (fun u => if u = "u1" then .ok ["A", "B"] else .ok ["C"])
    (fun u => if u = "u1" then ["A", "B"] else ["C"]) ["u1", "u2"]
    (by intro u hu; fin_cases hu <;> rfl)
  refine ⟨?_, ?_⟩
  · rw [h.1]; rfl
  · rw [h.2.1]; rfl

end Fanbox

namespace Fanbox

theorem lib_postBody_unknown (j : Json) (tag : String)
    (htag : j.get? "type" = some (.str tag)) (h1 : tag ≠ "image")
    (h2 : tag ≠ "article") (h3 : tag ≠ "file") (h4 : tag ≠ "text") :
    Lib.PostBody.deserialize j = .ok .unknown := by
  simp [Lib.PostBody.deserialize, htag, h1, h2, h3, h4]

theorem lib_articleBlock_unknown (j : Json) (tag : String)
    (htag : j.get? "type" = some (.str tag)) (h1 : tag ≠ "p")
    (h2 : tag ≠ "header") (h3 : tag ≠ "image") (h4 : tag ≠ "file")
    (h5 : tag ≠ "embed") (h6 : tag ≠ "url_embed") :
    Lib.ArticleBlock.deserialize j = .ok .unknown := by
  simp [Lib.ArticleBlock.deserialize, htag, h1, h2, h3, h4, h5, h6]

theorem lib_urlEmbed_unknown (j : Json) (tag : String)
    (htag : j.get? "type" = some (.str tag)) (h1 : tag ≠ "default")
    (h2 : tag ≠ "html") (h3 : tag ≠ "html.card") :
    Lib.UrlEmbed.deserialize j = .ok .unknown := by
  simp [Lib.UrlEmbed.deserialize, htag, h1, h2, h3]

theorem lib_embed_unknown (j : Json) (tag : String)
    (htag : j.get? "serviceProvider" = some (.str tag)) (h1 : tag ≠ "twitter")
    (h2 : tag ≠ "fanbox") (h3 : tag ≠ "youtube") :
    Lib.Embed.deserialize j = .ok .unknown := by
  simp [Lib.Embed.deserialize, htag, h1, h2, h3]

theorem main_postBody_unknown_tag_fails (j : Json) (tag : String)
    (htag : j.get? "type" = some (.str tag)) (h1 : tag ≠ "image")
    (h2 : tag ≠ "article") (h3 : tag ≠ "file") (h4 : tag ≠ "text") :
    MainM.PostBody.deserialize j =
      .error ("unknown variant of tag type: " ++ tag) := by
  simp [MainM.PostBody.deserialize, htag, h1, h2, h3, h4]

/-- Claim C1 (amended): the library content model (lib.rs) routes any
unrecognized string tag of PostBody, ArticleBlock, UrlEmbed and Embed to
the Unknown variant and the enclosing post still parses; the binary
pipeline (main.rs) re-declares these unions without the Unknown arm, so
there an unrecognized body tag fails the body deserialization and the
flattened optional body of the enclosing post becomes none, which the
pipeline treats as a post with no viewable body. -/
theorem unknown_tag_tolerance :
    (∀ j tag, j.get? "type" = some (.str tag) → tag ≠ "image" →
      tag ≠ "article" → tag ≠ "file" → tag ≠ "text" →
      Lib.PostBody.deserialize j = .ok .unknown) ∧
    (∀ j tag, j.get? "type" = some (.str tag) → tag ≠ "p" → tag ≠ "header" →
      tag ≠ "image" → tag ≠ "file" → tag ≠ "embed" → tag ≠ "url_embed" →
      Lib.ArticleBlock.deserialize j = .ok .unknown) ∧
    (∀ j tag, j.get? "type" = some (.str tag) → tag ≠ "default" →
      tag ≠ "html" → tag ≠ "html.card" →
      Lib.UrlEmbed.deserialize j = .ok .unknown) ∧
    (∀ j tag, j.get? "serviceProvider" = some (.str tag) → tag ≠ "twitter" →
      tag ≠ "fanbox" → tag ≠ "youtube" →
      Lib.Embed.deserialize j = .ok .unknown) ∧
    (∀ pd j tag info, j.get? "type" = some (.str tag) → tag ≠ "image" →
      tag ≠ "article" → tag ≠ "file" → tag ≠ "text" →
      PostInfo.deserialize pd j = .ok info →
      Lib.Post.deserialize pd j = .ok ⟨info, some .unknown⟩) ∧
    (∀ pd j tag info, j.get? "type" = some (.str tag) → tag ≠ "image" →
      tag ≠ "article" → tag ≠ "file" → tag ≠ "text" →
      PostInfo.deserialize pd j = .ok info →
      MainM.PostInfoResponseBody.deserialize pd j = .ok ⟨info, none⟩) := by
  refine ⟨lib_postBody_unknown, lib_articleBlock_unknown, lib_urlEmbed_unknown,
    lib_embed_unknown, ?_, ?_⟩
  · intro pd j tag info htag h1 h2 h3 h4 hinfo
    simp [Lib.Post.deserialize, hinfo,
      lib_postBody_unknown j tag htag h1 h2 h3 h4, Except.toOption]
    rfl
  · intro pd j tag info htag h1 h2 h3 h4 hinfo
    simp [MainM.PostInfoResponseBody.deserialize, hinfo,
      main_postBody_unknown_tag_fails j tag htag h1 h2 h3 h4, Except.toOption]
    rfl

/-- Example datetime parser and fixtures used by concrete instances. -/
def pdEx : String → Option Mtime :=
  fun s => if s = "2024-01-01T00:00:00Z" then some ⟨1704067200, 0⟩ else none

def infoEx1 : PostInfo := ⟨"A", "T", none, ⟨1704067200, 0⟩, "c"⟩

def videoPostJson : Json := .obj
  [("id", .str "A"), ("title", .str "T"), ("coverImageUrl", .null),
   ("updatedDatetime", .str "2024-01-01T00:00:00Z"), ("creatorId", .str "c"),
   ("type", .str "video")]

/-- Concrete instances of claim C1 as amended. -/
theorem unknown_tag_tolerance_witness :
    Lib.PostBody.deserialize (.obj [("type", Json.str "video")]) =
      .ok .unknown ∧
    Lib.ArticleBlock.deserialize (.obj [("type", Json.str "sticker")]) =
      .ok .unknown ∧
    Lib.UrlEmbed.deserialize (.obj [("type", Json.str "video.card")]) =
      .ok .unknown ∧
    Lib.Embed.deserialize (.obj [("serviceProvider", Json.str "soundcloud")]) =
      .ok .unknown ∧
    Lib.Post.deserialize pdEx videoPostJson = .ok ⟨infoEx1, some .unknown⟩ ∧
    MainM.PostInfoResponseBody.deserialize pdEx videoPostJson =
      .ok ⟨infoEx1, none⟩ := by
  refine ⟨?_, ?_, ?_, ?_, ?_, ?_⟩
  · exact unknown_tag_tolerance.1 _ "video" rfl (by decide) (by decide)
      (by decide) (by decide)
  · exact unknown_tag_tolerance.2.1 _ "sticker" rfl (by decide) (by decide)
      (by decide) (by decide) (by decide) (by decide)
  · exact unknown_tag_tolerance.2.2.1 _ "video.card" rfl (by decide)
      (by decide) (by decide)
  · exact unknown_tag_tolerance.2.2.2.1 _ "soundcloud" rfl (by decide)
      (by decide) (by decide)
  · exact unknown_tag_tolerance.2.2.2.2.1 pdEx videoPostJson "video" infoEx1
      rfl (by decide) (by decide) (by decide) (by decide) rfl
  · exact unknown_tag_tolerance.2.2.2.2.2 pdEx videoPostJson "video" infoEx1
      rfl (by decide) (by decide) (by decide) (by decide) rfl

/-- Claim C1 counterexample: the post-body type of the pipeline (main.rs)
has no Unknown variant, and its deserialization of a body whose tag is not
one of the four known values fails instead of yielding an Unknown body. -/
theorem pipeline_postbody_rejects_unknown_tag :
    MainM.PostBody.deserialize (.obj [("type", Json.str "video")]) =
      .error "unknown variant of tag type: video" := by
  exact main_postBody_unknown_tag_fails _ "video" rfl (by decide) (by decide)
    (by decide) (by decide)

end Fanbox

namespace Fanbox

/-- Claim C3 (amended): for an article block referencing an id absent from
its map, no download is attempted, a warning naming the dangling id is
emitted, the remaining blocks are processed unchanged, and the only lines
pushed for the block are the constant paragraph wrapper lines that the
loop pushes around every block; no content fragment is emitted. -/
theorem dangling_ref_behavior (net : Net) (destDir : String) (mt : Mtime)
    (body : MainM.PostBodyArticleBody) :
    (∀ iid rest, body.imageMap.lookup iid = none →
      blocksLoop net destDir mt body (.image iid :: rest) =
        (Ev.emit "<p>" ::
           Ev.warn ("image " ++ iid ++ " is not available in imageMap") ::
           Ev.emit "</p>" :: (blocksLoop net destDir mt body rest).1,
         (blocksLoop net destDir mt body rest).2) ∧
      countP isGetEv
        [Ev.emit "<p>",
         Ev.warn ("image " ++ iid ++ " is not available in imageMap"),
         Ev.emit "</p>"] = 0 ∧
      countP isWarnEv
        [Ev.emit "<p>",
         Ev.warn ("image " ++ iid ++ " is not available in imageMap"),
         Ev.emit "</p>"] = 1) ∧
    (∀ fid rest, body.fileMap.lookup fid = none →
      blocksLoop net destDir mt body (.file fid :: rest) =
        (Ev.emit "<p>" ::
           Ev.warn ("file " ++ fid ++ " is not available in fileMap") ::
           Ev.emit "</p>" :: (blocksLoop net destDir mt body rest).1,
         (blocksLoop net destDir mt body rest).2)) ∧
    (∀ uid rest, body.urlEmbedMap.lookup uid = none →
      blocksLoop net destDir mt body (.urlEmbed uid :: rest) =
        (Ev.emit "<p>" ::
           Ev.warn ("url_embed " ++ uid ++ " is not available in urlEmbedMap") ::
           Ev.emit "</p>" :: (blocksLoop net destDir mt body rest).1,
         (blocksLoop net destDir mt body rest).2)) := by
  refine ⟨?_, ?_, ?_⟩
  · intro iid rest hlook
    refine ⟨?_, by simp [countP, isGetEv], by simp [countP, isWarnEv]⟩
    cases hrest : blocksLoop net destDir mt body rest with
    | mk t2 e2 => simp [blocksLoop, blockSegment, hlook, hrest]
  · intro fid rest hlook
    cases hrest : blocksLoop net destDir mt body rest with
    | mk t2 e2 => simp [blocksLoop, blockSegment, hlook, hrest]
  · intro uid rest hlook
    cases hrest : blocksLoop net destDir mt body rest with
    | mk t2 e2 => simp [blocksLoop, blockSegment, hlook, hrest]

/-- Concrete instance of claim C3 as amended: a dangling image reference
warns and the following paragraph block is rendered unchanged. -/
theorem dangling_ref_behavior_witness :
    blocksLoop (fun _ => .sendFail) "d" ⟨0, 0⟩ ⟨[], [], [], []⟩
        [.image "x", .p "after"] =
      ([Ev.emit "<p>", Ev.warn "image x is not available in imageMap",
        Ev.emit "</p>", Ev.emit "<p>", Ev.emit "after", Ev.emit "</p>"],
       none) := by
  have h := (dangling_ref_behavior (fun _ => .sendFail) "d" ⟨0, 0⟩
    ⟨[], [], [], []⟩).1 "x" [.p "after"] rfl
  rw [h.1]
  rfl

/-- Claim C3 counterexample: the rendered line sequence for a dangling
reference block is not empty; the loop pushes the paragraph wrapper lines
for that block even though it contributes no content fragment. -/
theorem dangling_ref_wrapper_emitted :
    emittedLines (blocksLoop (fun _ => .sendFail) "d" ⟨0, 0⟩ ⟨[], [], [], []⟩
        [.image "x"]).1 = ["<p>", "</p>"] ∧
      (["<p>", "</p>"] : List String) ≠ [] := by
  exact ⟨rfl, by decide⟩

/-- Claim C4: a post whose fetched body is absent yields exactly one
warning, no directory creation and no file writes for that post, and the
loop continues with the next post id unchanged. -/
theorem absent_body_warns_and_continues (api : Api) (cid root id : String)
    (rest : List String) (fp : FetchedPost)
    (hfetch : api.postInfo id = .ok fp) (hbody : fp.body = none) :
    runPosts api cid root (id :: rest) =
      (Ev.apiGet (postInfoUrl id) ::
         Ev.warn (permissionWarning cid fp.info.id) ::
         (runPosts api cid root rest).1,
       (runPosts api cid root rest).2) ∧
    countP isWarnEv
      [Ev.apiGet (postInfoUrl id), Ev.warn (permissionWarning cid fp.info.id)]
      = 1 ∧
    countP isMkdirEv
      [Ev.apiGet (postInfoUrl id), Ev.warn (permissionWarning cid fp.info.id)]
      = 0 ∧
    countP isWriteEv
      [Ev.apiGet (postInfoUrl id), Ev.warn (permissionWarning cid fp.info.id)]
      = 0 := by
  refine ⟨?_, by simp [countP, isWarnEv], by simp [countP, isMkdirEv],
    by simp [countP, isWriteEv]⟩
  cases hrest : runPosts api cid root rest with
  | mk t2 e2 => simp [runPosts, hfetch, processPost, hbody, hrest]

/-- Example API in which every post is fetched with an absent body. -/
def apiAllNoBody : Api where
  paginate := fun _ => .ok []
  listCreator := fun _ => .ok []
  postInfo := fun _ => .ok ⟨infoEx1, none⟩
  assetNet := fun _ => .sendFail

/-- Concrete instance of claim C4: two posts with absent bodies produce
two warnings and nothing else, and the run does not abort. -/
theorem absent_body_warns_and_continues_witness :
    runPosts apiAllNoBody "c" "r" ["A", "B"] =
      ([Ev.apiGet (postInfoUrl "A"), Ev.warn (permissionWarning "c" "A"),
        Ev.apiGet (postInfoUrl "B"), Ev.warn (permissionWarning "c" "A")],
       none) := by
  have h := absent_body_warns_and_continues apiAllNoBody "c" "r" "A" ["B"]
    ⟨infoEx1, none⟩ rfl rfl
  rw [h.1]
  rfl

end Fanbox

namespace Fanbox

/-- Claim C6: when the single-post fetch for an id X returns a non-2xx
status, the per-page loop stops at that call with a status-kind error whose
context names the request of X, having created no directory for X; lifted
to the whole run, the run aborts with that error right after the failing
call, with no directory created anywhere and nothing after the failing
call, so no request is retried. -/
theorem status_error_aborts_run (api : Api) (cid root X : String)
    (rest : List String) (c : Nat) (hstatus : api.postInfo X = .statusErr c) :
    runPosts api cid root (X :: rest) =
      ([Ev.apiGet (postInfoUrl X)],
       some (.statusFailed ("post.info returns error: postId=" ++ X))) ∧
    countP isMkdirEv [Ev.apiGet (postInfoUrl X)] = 0 ∧
    (∀ pageUrl morePages restIds,
      api.paginate cid = .ok (pageUrl :: morePages) →
      api.listCreator pageUrl = .ok (X :: restIds) →
      runMain api cid root =
        ([Ev.apiGet (paginateUrl cid), Ev.apiGet pageUrl,
          Ev.apiGet (postInfoUrl X)],
         some (.statusFailed ("post.info returns error: postId=" ++ X))) ∧
      countP isMkdirEv
        [Ev.apiGet (paginateUrl cid), Ev.apiGet pageUrl,
         Ev.apiGet (postInfoUrl X)] = 0) := by
  have hposts : runPosts api cid root (X :: rest) =
      ([Ev.apiGet (postInfoUrl X)],
       some (.statusFailed ("post.info returns error: postId=" ++ X))) := by
    simp [runPosts, hstatus]
  refine ⟨hposts, by simp [countP, isMkdirEv], ?_⟩
  intro pageUrl morePages restIds hpag hlist
  have hposts2 : runPosts api cid root (X :: restIds) =
      ([Ev.apiGet (postInfoUrl X)],
       some (.statusFailed ("post.info returns error: postId=" ++ X))) := by
    simp [runPosts, hstatus]
  refine ⟨?_, by simp [countP, isMkdirEv]⟩
  simp [runMain, hpag, runPages, hlist, hposts2]

/-- Example API in which the post.info call for any id returns HTTP 403. -/
def apiStatus403 : Api where
  paginate := fun _ => .ok ["pg"]
  listCreator := fun _ => .ok ["X", "Y"]
  postInfo := fun _ => .statusErr 403
  assetNet := fun _ => .sendFail

/-- Concrete instance of claim C6: a 403 on post.info for X aborts the
whole run with the status error naming X, creating no directory. -/
theorem status_error_aborts_run_witness :
    runMain apiStatus403 "c" "r" =
      ([Ev.apiGet (paginateUrl "c"), Ev.apiGet "pg",
        Ev.apiGet (postInfoUrl "X")],
       some (.statusFailed "post.info returns error: postId=X")) := by
  have h := (status_error_aborts_run apiStatus403 "c" "r" "X" ["Y"] 403
    rfl).2.2 "pg" [] ["Y"] rfl rfl
  exact h.1

/-- Trace of the article renderer for the blocks paragraph, known image
reference, paragraph, before the index file is written. -/
def orderedArticleTrace (destDir : String) (info : PostInfo)
    (t1 t2 : String) (img : Image) (bs : List Nat) : List Ev :=
  [Ev.emit (titleLine info),
   Ev.emit "<p>", Ev.emit t1, Ev.emit "</p>",
   Ev.emit "<p>",
   Ev.createFile (assetPath destDir img.id img.extension),
   Ev.getUrl img.originalUrl,
   Ev.writeBytes (assetPath destDir img.id img.extension) bs,
   Ev.setMtime (assetPath destDir img.id img.extension) info.updatedDatetime,
   Ev.emit (imageArticleLine img), Ev.emit "</p>",
   Ev.emit "<p>", Ev.emit t2, Ev.emit "</p>"]

/-- Claim C5 (amended): for an article whose blocks are paragraph, image
reference with a known id, paragraph (the pipeline block vocabulary has no
header kind), rendering emits the fragments in exactly that order and the
referenced image is downloaded before the trailing paragraph fragment is
emitted; the index file is written last from the emitted lines. -/
theorem article_order_preserved (net : Net) (destDir : String)
    (info : PostInfo) (body : MainM.PostBodyArticleBody)
    (t1 t2 iid : String) (img : Image) (bs : List Nat)
    (hcover : info.coverImageUrl = none)
    (hblocks : body.blocks = [.p t1, .image iid, .p t2])
    (hlook : body.imageMap.lookup iid = some img)
    (hnet : net img.originalUrl = .ok bs) :
    download_article_post net destDir info body =
      (orderedArticleTrace destDir info t1 t2 img bs ++
         indexSegment destDir info.updatedDatetime
           (orderedArticleTrace destDir info t1 t2 img bs),
       none) := by
  simp [download_article_post, coverSegment, hcover, hblocks, blocksLoop,
    blockSegment, hlook, download_to, hnet, orderedArticleTrace]

/-- Concrete instance of claim C5 as amended. -/
theorem article_order_preserved_witness :
    download_article_post (fun _ => .ok [1, 2]) "r/A" infoEx1
        ⟨[.p "one", .image "i1", .p "two"],
         [("i1", ⟨"i1", "png", "http://img"⟩)], [], []⟩ =
      (orderedArticleTrace "r/A" infoEx1 "one" "two" ⟨"i1", "png", "http://img"⟩
         [1, 2] ++
       indexSegment "r/A" infoEx1.updatedDatetime
         (orderedArticleTrace "r/A" infoEx1 "one" "two"
           ⟨"i1", "png", "http://img"⟩ [1, 2]),
       none) := by
  exact article_order_preserved (fun _ => .ok [1, 2]) "r/A" infoEx1
    ⟨[.p "one", .image "i1", .p "two"], [("i1", ⟨"i1", "png", "http://img"⟩)],
     [], []⟩ "one" "two" "i1" ⟨"i1", "png", "http://img"⟩ [1, 2] rfl rfl rfl rfl

/-- Fixture: a header-tagged article block as it appears on the wire. -/
def headerBlockJson : Json := .obj [("type", .str "header"), ("text", .str "T")]

/-- Fixture: a full post whose article body contains a header block. -/
def articleWithHeaderJson : Json := .obj
  [("id", .str "A"), ("title", .str "T"), ("coverImageUrl", .null),
   ("updatedDatetime", .str "2024-01-01T00:00:00Z"), ("creatorId", .str "c"),
   ("type", .str "article"),
   ("body", .obj
     [("blocks", .arr
        [headerBlockJson,
         .obj [("type", .str "image"), ("imageId", .str "i1")],
         .obj [("type", .str "p"), ("text", .str "x")]]),
      ("imageMap", .obj
        [("i1", .obj [("id", .str "i1"), ("extension", .str "png"),
                      ("originalUrl", .str "http://img")])]),
      ("fileMap", .obj []), ("embedMap", .obj []), ("urlEmbedMap", .obj [])])]

/-- Claim C5 counterexample: the pipeline block vocabulary (main.rs) has no
header kind, so a block list starting with a header block cannot reach the
renderer: the block fails to deserialize, and the whole post containing it
parses with an absent body and is treated as not viewable, producing no
fragments at all; the library type (lib.rs), by contrast, does parse the
header block, but lib.rs has no renderer. -/
theorem header_block_rejected_by_pipeline :
    MainM.ArticleBlock.deserialize headerBlockJson =
      .error "unknown variant of tag type: header" ∧
    MainM.PostInfoResponseBody.deserialize pdEx articleWithHeaderJson =
      .ok ⟨infoEx1, none⟩ ∧
    Lib.ArticleBlock.deserialize headerBlockJson = .ok (.header "T") := by
  exact ⟨rfl, rfl, rfl⟩

end Fanbox

namespace Fanbox

theorem countP_cons_of_neg (p : Ev → Bool) (e : Ev) (t : List Ev)
    (h : p e = false) : countP p (e :: t) = countP p t := by
  simp [countP, List.filter_cons, h]

theorem countWI_download_to (net : Net) (url path : String) (mt : Mtime) :
    countP isWriteIndexEv (download_to net url path mt).1 = 0 := by
  cases h : net url <;> simp [download_to, h, countP, isWriteIndexEv]

theorem countWI_map_emit (l : List String) :
    countP isWriteIndexEv (l.map Ev.emit) = 0 := by
  induction l with
  | nil => rfl
  | cons s rest ih =>
    rw [List.map_cons, countP_cons_of_neg _ _ _ rfl]
    exact ih

theorem countWI_coverSegment (net : Net) (destDir : String) (mt : Mtime)
    (cover : Option String) (lines : String → List String) :
    countP isWriteIndexEv (coverSegment net destDir mt cover lines).1 = 0 := by
  cases cover with
  | none => rfl
  | some url =>
    cases hdl : download_to net url (destDir ++ "/cover_image.jpeg") mt with
    | mk t e =>
      have ht : countP isWriteIndexEv t = 0 := by
        have h := countWI_download_to net url (destDir ++ "/cover_image.jpeg") mt
        rw [hdl] at h
        exact h
      cases e with
      | some err => simpa [coverSegment, hdl] using ht
      | none =>
        simp [coverSegment, hdl, countP_append, ht, countWI_map_emit]

theorem isWI_emit (s : String) : isWriteIndexEv (Ev.emit s) = false := rfl

theorem countWI_imagesLoop (net : Net) (destDir : String) (mt : Mtime)
    (l : List Image) :
    countP isWriteIndexEv (imagesLoop net destDir mt l).1 = 0 := by
  induction l with
  | nil => rfl
  | cons img rest ih =>
    cases hdl : download_to net img.originalUrl
        (assetPath destDir img.id img.extension) mt with
    | mk t e =>
      have ht : countP isWriteIndexEv t = 0 := by
        have h := countWI_download_to net img.originalUrl
          (assetPath destDir img.id img.extension) mt
        rw [hdl] at h
        exact h
      cases e with
      | some err =>
        have htrace : (imagesLoop net destDir mt (img :: rest)).1 = t := by
          simp [imagesLoop, hdl]
        rw [htrace]
        exact ht
      | none =>
        cases hrest : imagesLoop net destDir mt rest with
        | mk t2 e2 =>
          have h2 : countP isWriteIndexEv t2 = 0 := by
            rw [hrest] at ih
            exact ih
          have htrace : (imagesLoop net destDir mt (img :: rest)).1 =
              t ++ (Ev.emit (imageFullLine img) :: t2) := by
            simp [imagesLoop, hdl, hrest]
          rw [htrace, countP_append, ht,
            countP_cons_of_neg _ _ _ (isWI_emit _), h2]

theorem countWI_filesLoop (net : Net) (destDir : String) (mt : Mtime)
    (l : List File) :
    countP isWriteIndexEv (filesLoop net destDir mt l).1 = 0 := by
  induction l with
  | nil => rfl
  | cons f rest ih =>
    cases hdl : download_to net f.url (assetPath destDir f.id f.extension) mt with
    | mk t e =>
      have ht : countP isWriteIndexEv t = 0 := by
        have h := countWI_download_to net f.url
          (assetPath destDir f.id f.extension) mt
        rw [hdl] at h
        exact h
      cases e with
      | some err =>
        have htrace : (filesLoop net destDir mt (f :: rest)).1 = t := by
          simp [filesLoop, hdl]
        rw [htrace]
        exact ht
      | none =>
        cases hrest : filesLoop net destDir mt rest with
        | mk t2 e2 =>
          have h2 : countP isWriteIndexEv t2 = 0 := by
            rw [hrest] at ih
            exact ih
          have htrace : (filesLoop net destDir mt (f :: rest)).1 =
              t ++ (Ev.emit "<p>" :: Ev.emit (fileLinkLine f) ::
                Ev.emit "</p>" :: t2) := by
            simp [filesLoop, hdl, hrest]
          rw [htrace, countP_append, ht,
            countP_cons_of_neg _ _ _ (isWI_emit _),
            countP_cons_of_neg _ _ _ (isWI_emit _),
            countP_cons_of_neg _ _ _ (isWI_emit _), h2]

theorem countWI_blockSegment (net : Net) (destDir : String) (mt : Mtime)
    (body : MainM.PostBodyArticleBody) (b : MainM.ArticleBlock) :
    countP isWriteIndexEv (blockSegment net destDir mt body b).1 = 0 := by
  cases b with
  | p text => rfl
  | image iid =>
    cases hlook : body.imageMap.lookup iid with
    | none => simp [blockSegment, hlook, countP, isWriteIndexEv]
    | some img =>
      cases hdl : download_to net img.originalUrl
          (assetPath destDir img.id img.extension) mt with
      | mk t e =>
        have ht : countP isWriteIndexEv t = 0 := by
          have h := countWI_download_to net img.originalUrl
            (assetPath destDir img.id img.extension) mt
          rw [hdl] at h
          exact h
        cases e with
        | some err =>
          have htrace :
              (blockSegment net destDir mt body (.image iid)).1 = t := by
            simp [blockSegment, hlook, hdl]
          rw [htrace]
          exact ht
        | none =>
          have htrace : (blockSegment net destDir mt body (.image iid)).1 =
              t ++ [Ev.emit (imageArticleLine img)] := by
            simp [blockSegment, hlook, hdl]
          rw [htrace, countP_append, ht,
            countP_cons_of_neg _ _ _ (isWI_emit _), countP_nil]
  | file fid =>
    cases hlook : body.fileMap.lookup fid with
    | none => simp [blockSegment, hlook, countP, isWriteIndexEv]
    | some f =>
      cases hdl : download_to net f.url
          (assetPath destDir f.id f.extension) mt with
      | mk t e =>
        have ht : countP isWriteIndexEv t = 0 := by
          have h := countWI_download_to net f.url
            (assetPath destDir f.id f.extension) mt
          rw [hdl] at h
          exact h
        cases e with
        | some err =>
          have htrace :
              (blockSegment net destDir mt body (.file fid)).1 = t := by
            simp [blockSegment, hlook, hdl]
          rw [htrace]
          exact ht
        | none =>
          have htrace : (blockSegment net destDir mt body (.file fid)).1 =
              t ++ [Ev.emit (fileLinkLine f)] := by
            simp [blockSegment, hlook, hdl]
          rw [htrace, countP_append, ht,
            countP_cons_of_neg _ _ _ (isWI_emit _), countP_nil]
  | urlEmbed uid =>
    cases hlook : body.urlEmbedMap.lookup uid with
    | none => simp [blockSegment, hlook, countP, isWriteIndexEv]
    | some ue =>
      cases ue <;> simp [blockSegment, hlook, countP, isWriteIndexEv]

theorem countWI_blocksLoop (net : Net) (destDir : String) (mt : Mtime)
    (body : MainM.PostBodyArticleBody) (l : List MainM.ArticleBlock) :
    countP isWriteIndexEv (blocksLoop net destDir mt body l).1 = 0 := by
  induction l with
  | nil => rfl
  | cons b rest ih =>
    cases hseg : blockSegment net destDir mt body b with
    | mk t e =>
      have ht : countP isWriteIndexEv t = 0 := by
        have h := countWI_blockSegment net destDir mt body b
        rw [hseg] at h
        exact h
      cases e with
      | some err =>
        have htrace : (blocksLoop net destDir mt body (b :: rest)).1 =
            Ev.emit "<p>" :: t := by
          simp [blocksLoop, hseg]
        rw [htrace, countP_cons_of_neg _ _ _ (isWI_emit _)]
        exact ht
      | none =>
        cases hrest : blocksLoop net destDir mt body rest with
        | mk t2 e2 =>
          have h2 : countP isWriteIndexEv t2 = 0 := by
            rw [hrest] at ih
            exact ih
          have htrace : (blocksLoop net destDir mt body (b :: rest)).1 =
              Ev.emit "<p>" :: (t ++ (Ev.emit "</p>" :: t2)) := by
            simp [blocksLoop, hseg, hrest]
          rw [htrace, countP_cons_of_neg _ _ _ (isWI_emit _), countP_append,
            ht, countP_cons_of_neg _ _ _ (isWI_emit _), h2]

/-- Splitting a successful renderer trace at the final index segment. -/
theorem exists_index_split (destDir : String) (mt : Mtime) (tAll : List Ev)
    (h : countP isWriteIndexEv tAll = 0) :
    ∃ pre c, tAll ++ indexSegment destDir mt tAll =
      pre ++ [Ev.writeIndex (destDir ++ "/index.html") c,
              Ev.setMtime (destDir ++ "/index.html") mt] ∧
      countP isWriteIndexEv pre = 0 :=
  ⟨tAll, String.intercalate "\n" (emittedLines tAll), rfl, h⟩

end Fanbox

namespace Fanbox

theorem countWI_cons_emit (s : String) (t : List Ev) :
    countP isWriteIndexEv (Ev.emit s :: t) = countP isWriteIndexEv t :=
  countP_cons_of_neg _ _ _ (isWI_emit s)

/-- Shape of the per-renderer claim about the index write: no index write
at all on failure; on success a single final index write followed only by
its mtime stamp. -/
def IndexLast (r : List Ev × Option Err) (destDir : String) (mt : Mtime) :
    Prop :=
  (r.2 ≠ none → countP isWriteIndexEv r.1 = 0) ∧
  (r.2 = none → ∃ pre c, r.1 =
    pre ++ [Ev.writeIndex (destDir ++ "/index.html") c,
            Ev.setMtime (destDir ++ "/index.html") mt] ∧
    countP isWriteIndexEv pre = 0)

theorem structWI_image_post (net : Net) (destDir : String) (info : PostInfo)
    (b : MainM.PostBodyImageBody) :
    IndexLast (download_image_post net destDir info b) destDir
      info.updatedDatetime := by
  cases hc : coverSegment net destDir info.updatedDatetime info.coverImageUrl
      coverLines3 with
  | mk tc ec =>
    have htc : countP isWriteIndexEv tc = 0 := by
      have h := countWI_coverSegment net destDir info.updatedDatetime
        info.coverImageUrl coverLines3
      rw [hc] at h
      exact h
    cases ec with
    | some e =>
      have htrace : download_image_post net destDir info b =
          ([Ev.emit (titleLine info)] ++ tc, some e) := by
        simp [download_image_post, hc]
      rw [IndexLast, htrace]
      constructor
      · intro _
        show countP isWriteIndexEv ([Ev.emit (titleLine info)] ++ tc) = 0
        simp [countP_append, countWI_cons_emit, countP_nil, htc]
      · intro hnone
        exact absurd hnone (by simp)
    | none =>
      cases hi : imagesLoop net destDir info.updatedDatetime b.images with
      | mk ti ei =>
        have hti : countP isWriteIndexEv ti = 0 := by
          have h := countWI_imagesLoop net destDir info.updatedDatetime
            b.images
          rw [hi] at h
          exact h
        cases ei with
        | some e =>
          have htrace : download_image_post net destDir info b =
              ([Ev.emit (titleLine info)] ++ tc ++ ti, some e) := by
            simp [download_image_post, hc, hi]
          rw [IndexLast, htrace]
          constructor
          · intro _
            show countP isWriteIndexEv
              ([Ev.emit (titleLine info)] ++ tc ++ ti) = 0
            simp [countP_append, countWI_cons_emit, countP_nil, htc, hti]
          · intro hnone
            exact absurd hnone (by simp)
        | none =>
          have htrace : download_image_post net destDir info b =
              (([Ev.emit (titleLine info)] ++ tc ++ ti ++
                  [Ev.emit (paraLine b.text)]) ++
                 indexSegment destDir info.updatedDatetime
                   ([Ev.emit (titleLine info)] ++ tc ++ ti ++
                     [Ev.emit (paraLine b.text)]),
               none) := by
            simp [download_image_post, hc, hi]
          rw [IndexLast, htrace]
          constructor
          · intro hne
            exact absurd rfl hne
          · intro _
            exact exists_index_split destDir info.updatedDatetime _
              (by simp [countP_append, countWI_cons_emit, countP_nil, htc,
                hti])

theorem structWI_article_post (net : Net) (destDir : String) (info : PostInfo)
    (b : MainM.PostBodyArticleBody) :
    IndexLast (download_article_post net destDir info b) destDir
      info.updatedDatetime := by
  cases hc : coverSegment net destDir info.updatedDatetime info.coverImageUrl
      coverLines1 with
  | mk tc ec =>
    have htc : countP isWriteIndexEv tc = 0 := by
      have h := countWI_coverSegment net destDir info.updatedDatetime
        info.coverImageUrl coverLines1
      rw [hc] at h
      exact h
    cases ec with
    | some e =>
      have htrace : download_article_post net destDir info b =
          ([Ev.emit (titleLine info)] ++ tc, some e) := by
        simp [download_article_post, hc]
      rw [IndexLast, htrace]
      constructor
      · intro _
        show countP isWriteIndexEv ([Ev.emit (titleLine info)] ++ tc) = 0
        simp [countP_append, countWI_cons_emit, countP_nil, htc]
      · intro hnone
        exact absurd hnone (by simp)
    | none =>
      cases hb : blocksLoop net destDir info.updatedDatetime b b.blocks with
      | mk tb eb =>
        have htb : countP isWriteIndexEv tb = 0 := by
          have h := countWI_blocksLoop net destDir info.updatedDatetime b
            b.blocks
          rw [hb] at h
          exact h
        cases eb with
        | some e =>
          have htrace : download_article_post net destDir info b =
              ([Ev.emit (titleLine info)] ++ tc ++ tb, some e) := by
            simp [download_article_post, hc, hb]
          rw [IndexLast, htrace]
          constructor
          · intro _
            show countP isWriteIndexEv
              ([Ev.emit (titleLine info)] ++ tc ++ tb) = 0
            simp [countP_append, countWI_cons_emit, countP_nil, htc, htb]
          · intro hnone
            exact absurd hnone (by simp)
        | none =>
          have htrace : download_article_post net destDir info b =
              (([Ev.emit (titleLine info)] ++ tc ++ tb) ++
                 indexSegment destDir info.updatedDatetime
                   ([Ev.emit (titleLine info)] ++ tc ++ tb),
               none) := by
            simp [download_article_post, hc, hb]
          rw [IndexLast, htrace]
          constructor
          · intro hne
            exact absurd rfl hne
          · intro _
            exact exists_index_split destDir info.updatedDatetime _
              (by simp [countP_append, countWI_cons_emit, countP_nil, htc,
                htb])

theorem structWI_file_post (net : Net) (destDir : String) (info : PostInfo)
    (b : MainM.PostBodyFileBody) :
    IndexLast (download_file_post net destDir info b) destDir
      info.updatedDatetime := by
  cases hc : coverSegment net destDir info.updatedDatetime info.coverImageUrl
      coverLines3 with
  | mk tc ec =>
    have htc : countP isWriteIndexEv tc = 0 := by
      have h := countWI_coverSegment net destDir info.updatedDatetime
        info.coverImageUrl coverLines3
      rw [hc] at h
      exact h
    cases ec with
    | some e =>
      have htrace : download_file_post net destDir info b =
          ([Ev.emit (titleLine info)] ++ tc, some e) := by
        simp [download_file_post, hc]
      rw [IndexLast, htrace]
      constructor
      · intro _
        show countP isWriteIndexEv ([Ev.emit (titleLine info)] ++ tc) = 0
        simp [countP_append, countWI_cons_emit, countP_nil, htc]
      · intro hnone
        exact absurd hnone (by simp)
    | none =>
      cases hi : filesLoop net destDir info.updatedDatetime b.files with
      | mk tf ef =>
        have htf : countP isWriteIndexEv tf = 0 := by
          have h := countWI_filesLoop net destDir info.updatedDatetime b.files
          rw [hi] at h
          exact h
        cases ef with
        | some e =>
          have htrace : download_file_post net destDir info b =
              ([Ev.emit (titleLine info)] ++ tc ++ tf, some e) := by
            simp [download_file_post, hc, hi]
          rw [IndexLast, htrace]
          constructor
          · intro _
            show countP isWriteIndexEv
              ([Ev.emit (titleLine info)] ++ tc ++ tf) = 0
            simp [countP_append, countWI_cons_emit, countP_nil, htc, htf]
          · intro hnone
            exact absurd hnone (by simp)
        | none =>
          have htrace : download_file_post net destDir info b =
              (([Ev.emit (titleLine info)] ++ tc ++ tf ++
                  [Ev.emit (paraLine b.text)]) ++
                 indexSegment destDir info.updatedDatetime
                   ([Ev.emit (titleLine info)] ++ tc ++ tf ++
                     [Ev.emit (paraLine b.text)]),
               none) := by
            simp [download_file_post, hc, hi]
          rw [IndexLast, htrace]
          constructor
          · intro hne
            exact absurd rfl hne
          · intro _
            exact exists_index_split destDir info.updatedDatetime _
              (by simp [countP_append, countWI_cons_emit, countP_nil, htc,
                htf])

theorem structWI_text_post (net : Net) (destDir : String) (info : PostInfo)
    (b : MainM.PostBodyTextBody) :
    IndexLast (download_text_post net destDir info b) destDir
      info.updatedDatetime := by
  cases hc : coverSegment net destDir info.updatedDatetime info.coverImageUrl
      coverLines3 with
  | mk tc ec =>
    have htc : countP isWriteIndexEv tc = 0 := by
      have h := countWI_coverSegment net destDir info.updatedDatetime
        info.coverImageUrl coverLines3
      rw [hc] at h
      exact h
    cases ec with
    | some e =>
      have htrace : download_text_post net destDir info b =
          ([Ev.emit (titleLine info)] ++ tc, some e) := by
        simp [download_text_post, hc]
      rw [IndexLast, htrace]
      constructor
      · intro _
        show countP isWriteIndexEv ([Ev.emit (titleLine info)] ++ tc) = 0
        simp [countP_append, countWI_cons_emit, countP_nil, htc]
      · intro hnone
        exact absurd hnone (by simp)
    | none =>
      have htrace : download_text_post net destDir info b =
          (([Ev.emit (titleLine info)] ++ tc ++
              [Ev.emit (paraLine b.text)]) ++
             indexSegment destDir info.updatedDatetime
               ([Ev.emit (titleLine info)] ++ tc ++
                 [Ev.emit (paraLine b.text)]),
           none) := by
        simp [download_text_post, hc]
      rw [IndexLast, htrace]
      constructor
      · intro hne
        exact absurd rfl hne
      · intro _
        exact exists_index_split destDir info.updatedDatetime _
          (by simp [countP_append, countWI_cons_emit, countP_nil, htc])

/-- Claim C9: for every rendered post, the index file is written only after
every asset download of the post has succeeded: on any failure the trace
contains no index write at all (so the post directory holds no index.html,
though earlier assets of the same post may already be on disk), and on
success the single index write is the final event, followed only by its
own mtime stamp. -/
theorem index_written_last (net : Net) (destDir : String) (info : PostInfo)
    (b : MainM.PostBody) :
    IndexLast (processBody net destDir info b) destDir
      info.updatedDatetime := by
  cases b with
  | image x => exact structWI_image_post net destDir info x
  | article x => exact structWI_article_post net destDir info x
  | file x => exact structWI_file_post net destDir info x
  | text x => exact structWI_text_post net destDir info x

/-- Second-image failure oracle and fixture for the C9 instance. -/
def netC9 : Net := fun u => if u = "http://img1" then .ok [1, 2] else .sendFail

def bodyC9 : MainM.PostBodyImageBody :=
  ⟨"txt", [⟨"a", "png", "http://img1"⟩, ⟨"b", "png", "http://img2"⟩]⟩

/-- Concrete instance of claim C9: the second image download fails, the
post trace contains no index write, the first asset is already on disk
stamped with the post time, and no index.html exists. -/
theorem index_written_last_witness :
    countP isWriteIndexEv
        (processBody netC9 "d" infoEx1 (.image bodyC9)).1 = 0 ∧
      applyTrace emptyFS (processBody netC9 "d" infoEx1 (.image bodyC9)).1
        "d/a.png" = some ⟨.bytes [1, 2], some infoEx1.updatedDatetime⟩ ∧
      applyTrace emptyFS (processBody netC9 "d" infoEx1 (.image bodyC9)).1
        "d/index.html" = none := by
  refine ⟨(index_written_last netC9 "d" infoEx1 (.image bodyC9)).1
    (by decide), by decide, by decide⟩

end Fanbox

namespace Fanbox

theorem applyTrace_nil (fs : FS) : applyTrace fs [] = fs := rfl

theorem applyTrace_cons (fs : FS) (e : Ev) (t : List Ev) :
    applyTrace fs (e :: t) = applyTrace (applyEv fs e) t := rfl

theorem applyTrace_emit_cons (fs : FS) (s : String) (t : List Ev) :
    applyTrace fs (Ev.emit s :: t) = applyTrace fs t := rfl

theorem applyTrace_warn_cons (fs : FS) (s : String) (t : List Ev) :
    applyTrace fs (Ev.warn s :: t) = applyTrace fs t := rfl

theorem applyTrace_mkdir_cons (fs : FS) (s : String) (t : List Ev) :
    applyTrace fs (Ev.mkdir s :: t) = applyTrace fs t := rfl

theorem all_fsNeutral_map_emit (l : List String) :
    (l.map Ev.emit).all fsNeutral = true := by
  induction l with
  | nil => rfl
  | cons s rest ih => simp [List.all_cons, fsNeutral, ih]

theorem applyTrace_download_to_ok (net : Net) (url path : String) (mt : Mtime)
    (fs : FS) (bs : List Nat) (h : net url = .ok bs) :
    applyTrace fs (download_to net url path mt).1 =
      fsSet fs path ⟨.bytes bs, some mt⟩ := by
  funext q
  by_cases hq : q = path <;>
    simp [download_to, h, applyTrace, applyEv, fsSet, hq]

theorem stamp_download_to (net : Net) (url path : String) (mt : Mtime)
    (fs : FS) (hsucc : (download_to net url path mt).2 = none)
    (hfs : allStamped mt fs) :
    allStamped mt (applyTrace fs (download_to net url path mt).1) := by
  cases h : net url with
  | ok bs =>
    rw [applyTrace_download_to_ok net url path mt fs bs h]
    exact allStamped_fsSet mt fs path _ hfs
  | sendFail => simp [download_to, h] at hsucc
  | statusErr c => simp [download_to, h] at hsucc
  | readFail got => simp [download_to, h] at hsucc

theorem applyTrace_indexSegment (destDir : String) (mt : Mtime) (tr : List Ev)
    (fs : FS) :
    applyTrace fs (indexSegment destDir mt tr) =
      fsSet fs (destDir ++ "/index.html")
        ⟨.text (String.intercalate "\n" (emittedLines tr)), some mt⟩ := by
  funext q
  by_cases hq : q = destDir ++ "/index.html" <;>
    simp [indexSegment, applyTrace, applyEv, fsSet, hq]

theorem stamp_coverSegment (net : Net) (destDir : String) (mt : Mtime)
    (cover : Option String) (lines : String → List String) :
    ∀ fs, (coverSegment net destDir mt cover lines).2 = none →
      allStamped mt fs →
      allStamped mt (applyTrace fs (coverSegment net destDir mt cover lines).1) := by
  cases cover with
  | none => intro fs _ hfs; exact hfs
  | some url =>
    intro fs hsucc hfs
    cases hdl : download_to net url (destDir ++ "/cover_image.jpeg") mt with
    | mk t e =>
      cases e with
      | some err => simp [coverSegment, hdl] at hsucc
      | none =>
        have htrace : (coverSegment net destDir mt (some url) lines).1 =
            t ++ (lines url).map Ev.emit := by
          simp [coverSegment, hdl]
        rw [htrace, applyTrace_append,
          applyTrace_neutral (applyTrace fs t) ((lines url).map Ev.emit)
            (all_fsNeutral_map_emit (lines url))]
        have hd := stamp_download_to net url (destDir ++ "/cover_image.jpeg")
          mt fs (by rw [hdl]) hfs
        rw [hdl] at hd
        exact hd

theorem stamp_imagesLoop (net : Net) (destDir : String) (mt : Mtime)
    (l : List Image) :
    ∀ fs, (imagesLoop net destDir mt l).2 = none → allStamped mt fs →
      allStamped mt (applyTrace fs (imagesLoop net destDir mt l).1) := by
  induction l with
  | nil => intro fs _ hfs; exact hfs
  | cons img rest ih =>
    intro fs hsucc hfs
    cases hdl : download_to net img.originalUrl
        (assetPath destDir img.id img.extension) mt with
    | mk t e =>
      cases e with
      | some err => simp [imagesLoop, hdl] at hsucc
      | none =>
        cases hrest : imagesLoop net destDir mt rest with
        | mk t2 e2 =>
          have he2 : e2 = none := by
            have h : (imagesLoop net destDir mt (img :: rest)).2 = e2 := by
              simp [imagesLoop, hdl, hrest]
            rw [h] at hsucc
            exact hsucc
          have htrace : (imagesLoop net destDir mt (img :: rest)).1 =
              t ++ (Ev.emit (imageFullLine img) :: t2) := by
            simp [imagesLoop, hdl, hrest]
          rw [htrace, applyTrace_append, applyTrace_emit_cons]
          have hd := stamp_download_to net img.originalUrl
            (assetPath destDir img.id img.extension) mt fs (by rw [hdl]) hfs
          rw [hdl] at hd
          have := ih (applyTrace fs t) (by rw [hrest, he2]) hd
          rw [hrest] at this
          exact this

theorem stamp_filesLoop (net : Net) (destDir : String) (mt : Mtime)
    (l : List File) :
    ∀ fs, (filesLoop net destDir mt l).2 = none → allStamped mt fs →
      allStamped mt (applyTrace fs (filesLoop net destDir mt l).1) := by
  induction l with
  | nil => intro fs _ hfs; exact hfs
  | cons f rest ih =>
    intro fs hsucc hfs
    cases hdl : download_to net f.url (assetPath destDir f.id f.extension) mt with
    | mk t e =>
      cases e with
      | some err => simp [filesLoop, hdl] at hsucc
      | none =>
        cases hrest : filesLoop net destDir mt rest with
        | mk t2 e2 =>
          have he2 : e2 = none := by
            have h : (filesLoop net destDir mt (f :: rest)).2 = e2 := by
              simp [filesLoop, hdl, hrest]
            rw [h] at hsucc
            exact hsucc
          have htrace : (filesLoop net destDir mt (f :: rest)).1 =
              t ++ (Ev.emit "<p>" :: Ev.emit (fileLinkLine f) ::
                Ev.emit "</p>" :: t2) := by
            simp [filesLoop, hdl, hrest]
          rw [htrace, applyTrace_append, applyTrace_emit_cons,
            applyTrace_emit_cons, applyTrace_emit_cons]
          have hd := stamp_download_to net f.url
            (assetPath destDir f.id f.extension) mt fs (by rw [hdl]) hfs
          rw [hdl] at hd
          have := ih (applyTrace fs t) (by rw [hrest, he2]) hd
          rw [hrest] at this
          exact this

theorem stamp_blockSegment (net : Net) (destDir : String) (mt : Mtime)
    (body : MainM.PostBodyArticleBody) (b : MainM.ArticleBlock) :
    ∀ fs, (blockSegment net destDir mt body b).2 = none → allStamped mt fs →
      allStamped mt (applyTrace fs (blockSegment net destDir mt body b).1) := by
  cases b with
  | p text => intro fs _ hfs; exact hfs
  | image iid =>
    intro fs hsucc hfs
    cases hlook : body.imageMap.lookup iid with
    | none =>
      have htrace : (blockSegment net destDir mt body (.image iid)).1 =
          [Ev.warn ("image " ++ iid ++ " is not available in imageMap")] := by
        simp [blockSegment, hlook]
      rw [htrace]
      exact hfs
    | some img =>
      cases hdl : download_to net img.originalUrl
          (assetPath destDir img.id img.extension) mt with
      | mk t e =>
        cases e with
        | some err => simp [blockSegment, hlook, hdl] at hsucc
        | none =>
          have htrace : (blockSegment net destDir mt body (.image iid)).1 =
              t ++ [Ev.emit (imageArticleLine img)] := by
            simp [blockSegment, hlook, hdl]
          rw [htrace, applyTrace_append, applyTrace_emit_cons, applyTrace_nil]
          have hd := stamp_download_to net img.originalUrl
            (assetPath destDir img.id img.extension) mt fs (by rw [hdl]) hfs
          rw [hdl] at hd
          exact hd
  | file fid =>
    intro fs hsucc hfs
    cases hlook : body.fileMap.lookup fid with
    | none =>
      have htrace : (blockSegment net destDir mt body (.file fid)).1 =
          [Ev.warn ("file " ++ fid ++ " is not available in fileMap")] := by
        simp [blockSegment, hlook]
      rw [htrace]
      exact hfs
    | some f =>
      cases hdl : download_to net f.url
          (assetPath destDir f.id f.extension) mt with
      | mk t e =>
        cases e with
        | some err => simp [blockSegment, hlook, hdl] at hsucc
        | none =>
          have htrace : (blockSegment net destDir mt body (.file fid)).1 =
              t ++ [Ev.emit (fileLinkLine f)] := by
            simp [blockSegment, hlook, hdl]
          rw [htrace, applyTrace_append, applyTrace_emit_cons, applyTrace_nil]
          have hd := stamp_download_to net f.url
            (assetPath destDir f.id f.extension) mt fs (by rw [hdl]) hfs
          rw [hdl] at hd
          exact hd
  | urlEmbed uid =>
    intro fs hsucc hfs
    cases hlook : body.urlEmbedMap.lookup uid with
    | none =>
      have htrace : (blockSegment net destDir mt body (.urlEmbed uid)).1 =
          [Ev.warn ("url_embed " ++ uid ++
            " is not available in urlEmbedMap")] := by
        simp [blockSegment, hlook]
      rw [htrace]
      exact hfs
    | some ue =>
      cases ue with
      | default u =>
        have htrace : (blockSegment net destDir mt body (.urlEmbed uid)).1 =
            [Ev.emit (anchorLine u)] := by
          simp [blockSegment, hlook]
        rw [htrace]
        exact hfs
      | html h =>
        have htrace : (blockSegment net destDir mt body (.urlEmbed uid)).1 =
            [Ev.emit h] := by
          simp [blockSegment, hlook]
        rw [htrace]
        exact hfs
      | htmlCard h =>
        have htrace : (blockSegment net destDir mt body (.urlEmbed uid)).1 =
            [Ev.emit h] := by
          simp [blockSegment, hlook]
        rw [htrace]
        exact hfs

theorem stamp_blocksLoop (net : Net) (destDir : String) (mt : Mtime)
    (body : MainM.PostBodyArticleBody) (l : List MainM.ArticleBlock) :
    ∀ fs, (blocksLoop net destDir mt body l).2 = none → allStamped mt fs →
      allStamped mt (applyTrace fs (blocksLoop net destDir mt body l).1) := by
  induction l with
  | nil => intro fs _ hfs; exact hfs
  | cons b rest ih =>
    intro fs hsucc hfs
    cases hseg : blockSegment net destDir mt body b with
    | mk t e =>
      cases e with
      | some err => simp [blocksLoop, hseg] at hsucc
      | none =>
        cases hrest : blocksLoop net destDir mt body rest with
        | mk t2 e2 =>
          have he2 : e2 = none := by
            have h : (blocksLoop net destDir mt body (b :: rest)).2 = e2 := by
              simp [blocksLoop, hseg, hrest]
            rw [h] at hsucc
            exact hsucc
          have htrace : (blocksLoop net destDir mt body (b :: rest)).1 =
              Ev.emit "<p>" :: (t ++ (Ev.emit "</p>" :: t2)) := by
            simp [blocksLoop, hseg, hrest]
          rw [htrace, applyTrace_emit_cons, applyTrace_append,
            applyTrace_emit_cons]
          have hsg := stamp_blockSegment net destDir mt body b fs
            (by rw [hseg]) hfs
          rw [hseg] at hsg
          have := ih (applyTrace fs t) (by rw [hrest, he2]) hsg
          rw [hrest] at this
          exact this

end Fanbox

namespace Fanbox

theorem stamp_image_post (net : Net) (destDir : String) (info : PostInfo)
    (b : MainM.PostBodyImageBody) :
    ∀ fs, (download_image_post net destDir info b).2 = none →
      allStamped info.updatedDatetime fs →
      allStamped info.updatedDatetime
        (applyTrace fs (download_image_post net destDir info b).1) := by
  intro fs hsucc hfs
  cases hc : coverSegment net destDir info.updatedDatetime info.coverImageUrl
      coverLines3 with
  | mk tc ec =>
    cases ec with
    | some e => simp [download_image_post, hc] at hsucc
    | none =>
      cases hi : imagesLoop net destDir info.updatedDatetime b.images with
      | mk ti ei =>
        cases ei with
        | some e => simp [download_image_post, hc, hi] at hsucc
        | none =>
          have htrace : (download_image_post net destDir info b).1 =
              ([Ev.emit (titleLine info)] ++ tc ++ ti ++
                 [Ev.emit (paraLine b.text)]) ++
                indexSegment destDir info.updatedDatetime
                  ([Ev.emit (titleLine info)] ++ tc ++ ti ++
                    [Ev.emit (paraLine b.text)]) := by
            simp [download_image_post, hc, hi]
          rw [htrace, applyTrace_append, applyTrace_indexSegment]
          apply allStamped_fsSet
          rw [applyTrace_append, applyTrace_emit_cons, applyTrace_nil,
            applyTrace_append, applyTrace_append, applyTrace_emit_cons,
            applyTrace_nil]
          have h1 := stamp_coverSegment net destDir info.updatedDatetime
            info.coverImageUrl coverLines3 fs (by rw [hc]) hfs
          rw [hc] at h1
          have h2 := stamp_imagesLoop net destDir info.updatedDatetime
            b.images (applyTrace fs tc) (by rw [hi]) h1
          rw [hi] at h2
          exact h2

theorem stamp_article_post (net : Net) (destDir : String) (info : PostInfo)
    (b : MainM.PostBodyArticleBody) :
    ∀ fs, (download_article_post net destDir info b).2 = none →
      allStamped info.updatedDatetime fs →
      allStamped info.updatedDatetime
        (applyTrace fs (download_article_post net destDir info b).1) := by
  intro fs hsucc hfs
  cases hc : coverSegment net destDir info.updatedDatetime info.coverImageUrl
      coverLines1 with
  | mk tc ec =>
    cases ec with
    | some e => simp [download_article_post, hc] at hsucc
    | none =>
      cases hb : blocksLoop net destDir info.updatedDatetime b b.blocks with
      | mk tb eb =>
        cases eb with
        | some e => simp [download_article_post, hc, hb] at hsucc
        | none =>
          have htrace : (download_article_post net destDir info b).1 =
              ([Ev.emit (titleLine info)] ++ tc ++ tb) ++
                indexSegment destDir info.updatedDatetime
                  ([Ev.emit (titleLine info)] ++ tc ++ tb) := by
            simp [download_article_post, hc, hb]
          rw [htrace, applyTrace_append, applyTrace_indexSegment]
          apply allStamped_fsSet
          rw [applyTrace_append, applyTrace_append, applyTrace_emit_cons,
            applyTrace_nil]
          have h1 := stamp_coverSegment net destDir info.updatedDatetime
            info.coverImageUrl coverLines1 fs (by rw [hc]) hfs
          rw [hc] at h1
          have h2 := stamp_blocksLoop net destDir info.updatedDatetime b
            b.blocks (applyTrace fs tc) (by rw [hb]) h1
          rw [hb] at h2
          exact h2

theorem stamp_file_post (net : Net) (destDir : String) (info : PostInfo)
    (b : MainM.PostBodyFileBody) :
    ∀ fs, (download_file_post net destDir info b).2 = none →
      allStamped info.updatedDatetime fs →
      allStamped info.updatedDatetime
        (applyTrace fs (download_file_post net destDir info b).1) := by
  intro fs hsucc hfs
  cases hc : coverSegment net destDir info.updatedDatetime info.coverImageUrl
      coverLines3 with
  | mk tc ec =>
    cases ec with
    | some e => simp [download_file_post, hc] at hsucc
    | none =>
      cases hi : filesLoop net destDir info.updatedDatetime b.files with
      | mk tf ef =>
        cases ef with
        | some e => simp [download_file_post, hc, hi] at hsucc
        | none =>
          have htrace : (download_file_post net destDir info b).1 =
              ([Ev.emit (titleLine info)] ++ tc ++ tf ++
                 [Ev.emit (paraLine b.text)]) ++
                indexSegment destDir info.updatedDatetime
                  ([Ev.emit (titleLine info)] ++ tc ++ tf ++
                    [Ev.emit (paraLine b.text)]) := by
            simp [download_file_post, hc, hi]
          rw [htrace, applyTrace_append, applyTrace_indexSegment]
          apply allStamped_fsSet
          rw [applyTrace_append, applyTrace_emit_cons, applyTrace_nil,
            applyTrace_append, applyTrace_append, applyTrace_emit_cons,
            applyTrace_nil]
          have h1 := stamp_coverSegment net destDir info.updatedDatetime
            info.coverImageUrl coverLines3 fs (by rw [hc]) hfs
          rw [hc] at h1
          have h2 := stamp_filesLoop net destDir info.updatedDatetime
            b.files (applyTrace fs tc) (by rw [hi]) h1
          rw [hi] at h2
          exact h2

theorem stamp_text_post (net : Net) (destDir : String) (info : PostInfo)
    (b : MainM.PostBodyTextBody) :
    ∀ fs, (download_text_post net destDir info b).2 = none →
      allStamped info.updatedDatetime fs →
      allStamped info.updatedDatetime
        (applyTrace fs (download_text_post net destDir info b).1) := by
  intro fs hsucc hfs
  cases hc : coverSegment net destDir info.updatedDatetime info.coverImageUrl
      coverLines3 with
  | mk tc ec =>
    cases ec with
    | some e => simp [download_text_post, hc] at hsucc
    | none =>
      have htrace : (download_text_post net destDir info b).1 =
          ([Ev.emit (titleLine info)] ++ tc ++
             [Ev.emit (paraLine b.text)]) ++
            indexSegment destDir info.updatedDatetime
              ([Ev.emit (titleLine info)] ++ tc ++
                [Ev.emit (paraLine b.text)]) := by
        simp [download_text_post, hc]
      rw [htrace, applyTrace_append, applyTrace_indexSegment]
      apply allStamped_fsSet
      rw [applyTrace_append, applyTrace_emit_cons, applyTrace_nil,
        applyTrace_append, applyTrace_emit_cons, applyTrace_nil]
      have h1 := stamp_coverSegment net destDir info.updatedDatetime
        info.coverImageUrl coverLines3 fs (by rw [hc]) hfs
      rw [hc] at h1
      exact h1

theorem stamp_processBody (net : Net) (destDir : String) (info : PostInfo)
    (b : MainM.PostBody) :
    ∀ fs, (processBody net destDir info b).2 = none →
      allStamped info.updatedDatetime fs →
      allStamped info.updatedDatetime
        (applyTrace fs (processBody net destDir info b).1) := by
  cases b with
  | image x => exact stamp_image_post net destDir info x
  | article x => exact stamp_article_post net destDir info x
  | file x => exact stamp_file_post net destDir info x
  | text x => exact stamp_text_post net destDir info x

/-- Claim C2: after a successful download, the stored file carries exactly
the requested mtime including the nanosecond component; and a successfully
processed post leaves every file it wrote stamped with the single
updatedAt value of the post. -/
theorem mtime_fidelity :
    (∀ net url path mt fs0, (download_to net url path mt).2 = none →
      ∃ bs, net url = .ok bs ∧
        applyTrace fs0 (download_to net url path mt).1 path =
          some ⟨.bytes bs, some mt⟩) ∧
    (∀ api cid root fp, (processPost api cid root fp).2 = none →
      allStamped fp.info.updatedDatetime
        (applyTrace emptyFS (processPost api cid root fp).1)) := by
  constructor
  · intro net url path mt fs0 hsucc
    cases h : net url with
    | ok bs =>
      refine ⟨bs, rfl, ?_⟩
      rw [applyTrace_download_to_ok net url path mt fs0 bs h]
      simp [fsSet]
    | sendFail => simp [download_to, h] at hsucc
    | statusErr c => simp [download_to, h] at hsucc
    | readFail got => simp [download_to, h] at hsucc
  · intro api cid root fp hsucc
    cases hb : fp.body with
    | none =>
      have htrace : (processPost api cid root fp).1 =
          [Ev.warn (permissionWarning cid fp.info.id)] := by
        simp [processPost, hb]
      rw [htrace]
      exact allStamped_empty _
    | some b =>
      cases hpb : processBody api.assetNet (root ++ "/" ++ fp.info.id)
          fp.info b with
      | mk t e =>
        have he : e = none := by
          have h : (processPost api cid root fp).2 = e := by
            simp [processPost, hb, hpb]
          rw [h] at hsucc
          exact hsucc
        have htrace : (processPost api cid root fp).1 =
            Ev.mkdir (root ++ "/" ++ fp.info.id) :: t := by
          simp [processPost, hb, hpb]
        rw [htrace, applyTrace_mkdir_cons]
        have := stamp_processBody api.assetNet (root ++ "/" ++ fp.info.id)
          fp.info b emptyFS (by rw [hpb, he]) (allStamped_empty _)
        rw [hpb] at this
        exact this

/-- Example API serving a text post, used by the C2 instance. -/
def apiTextPost : Api where
  paginate := fun _ => .ok []
  listCreator := fun _ => .ok []
  postInfo := fun _ => .ok ⟨infoEx1, some (.text ⟨"hi"⟩)⟩
  assetNet := fun _ => .sendFail

/-- Concrete instance of claim C2: a downloaded file carries exactly the
requested mtime, and every file of a processed text post is stamped with
the post updatedAt. -/
theorem mtime_fidelity_witness :
    applyTrace emptyFS
        (download_to (fun _ => .ok [5]) "u" "p" ⟨3, 4⟩).1 "p" =
      some ⟨.bytes [5], some ⟨3, 4⟩⟩ ∧
    allStamped infoEx1.updatedDatetime
      (applyTrace emptyFS
        (processPost apiTextPost "c" "r" ⟨infoEx1, some (.text ⟨"hi"⟩)⟩).1) := by
  constructor
  · obtain ⟨bs, hbs, h⟩ := mtime_fidelity.1 (fun _ => .ok [5]) "u" "p" ⟨3, 4⟩
      emptyFS rfl
    injection hbs with hh
    subst hh
    exact h
  · exact mtime_fidelity.2 apiTextPost "c" "r" ⟨infoEx1, some (.text ⟨"hi"⟩)⟩
      rfl

end Fanbox
